import Mathlib

/-!
Verification development for the Airtrail/Flightera flight-reconciliation
script (`src/main.py`).  The Python code is shallowly embedded: dictionaries
become explicit record structures (with key-absent, `None`, string and dict
shapes distinguished wherever the code observes the difference), Python
string primitives (`split`, `join`, `strip`, `lower`, `replace`, `in`,
`startswith`) become executable functions on `List Char`/`String`, datetime
instants become seconds-since-epoch integers with real proleptic-Gregorian
calendar arithmetic, the `pytz` timezone database becomes an oracle
parameter `TzDb`, and raised Python exceptions become `Except PyErr`.
The host system timezone is modelled as UTC (naive instants are taken as
UTC), `str.lower` is modelled on ASCII letters, and exception message
strings are elided (only the exception kind is kept); none of the verified
properties depend on these points.
-/

/-- Kinds of Python exception raised by the script: `ValueError` (bad
date/ISO parses), `AttributeError` (calling `.get`/`.strip`/`.lower` on
`None` or on a plain string), `pytz.UnknownTimeZoneError`, and the two
custom exceptions `DataMismatchError` and `MissingDataError`. -/
inductive PyErr where
  | valueError
  | attributeError
  | unknownTimeZone
  | dataMismatch
  | missingData
  deriving DecidableEq

/-- Python whitespace characters recognised by `str.strip()`. -/
def isPyWs (c : Char) : Bool :=
  c = ' ' || c = '\t' || c = '\n' || c = '\r' || c = '\x0b' || c = '\x0c'

/-- ASCII lower-casing of one character, as `str.lower()` acts on the
ASCII range. -/
def asciiLower (c : Char) : Char :=
  if 'A' ≤ c ∧ c ≤ 'Z' then Char.ofNat (c.toNat + 32) else c

/-- `str.lower()`. -/
def pyLower (s : String) : String := ⟨s.data.map asciiLower⟩

/-- `str.replace(" ", "")`: removes every space character (and only
spaces). -/
def removeSpaces (s : String) : String := ⟨s.data.filter (fun c => c ≠ ' ')⟩

/-- `str.replace(a, b)` for single-character `a`, `b`. -/
def replaceChar (a b : Char) (s : String) : String :=
  ⟨s.data.map (fun c => if c = a then b else c)⟩

/-- `str.replace('Z', '+00:00')` as applied to ISO timestamps. -/
def pyReplaceZ (s : String) : String :=
  ⟨s.data.flatMap (fun c => if c = 'Z' then "+00:00".data else [c])⟩

/-- Left trim: drop leading Python whitespace. -/
def trimL (l : List Char) : List Char := l.dropWhile isPyWs

/-- Right trim: drop trailing Python whitespace. -/
def trimR (l : List Char) : List Char := (l.reverse.dropWhile isPyWs).reverse

/-- `str.strip()` on the character list. -/
def stripChars (l : List Char) : List Char := trimL (trimR l)

/-- `str.strip()`. -/
def pyStripS (s : String) : String := ⟨stripChars s.data⟩

/-- `str.split(sep)` for a single-character separator: splits at every
occurrence, `"".split(sep) = [""]`. -/
def splitOnC (sep : Char) : List Char → List (List Char)
  | [] => [[]]
  | c :: rest =>
    if c = sep then [] :: splitOnC sep rest
    else
      match splitOnC sep rest with
      | [] => [[c]]
      | l :: ls => (c :: l) :: ls

/-- `sep.join(pieces)` for a single-character separator. -/
def joinC (sep : Char) : List (List Char) → List Char
  | [] => []
  | [x] => x
  | x :: y :: xs => x ++ sep :: joinC sep (y :: xs)

/-- `s.split('\n')`, the line decomposition used for notes. -/
def splitNL (l : List Char) : List (List Char) := splitOnC '\n' l

/-- `'\n'.join`, the line recomposition used for notes. -/
def joinNL (l : List (List Char)) : List Char := joinC '\n' l

/-- Substring test, Python's `needle in hay` on strings. -/
def subOf (needle : List Char) : List Char → Bool
  | [] => needle.isEmpty
  | c :: rest => needle.isPrefixOf (c :: rest) || subOf needle rest

/-- `a in b` for strings. -/
def pyIn (a b : String) : Bool := subOf a.data b.data

/-- Truthiness of an optional string field fetched with `.get`:
`None`/absent and the empty string are falsy. -/
def truthyOpt : Option String → Bool
  | some s => s ≠ ""
  | none => false

/-- A calendar date, as `datetime.date` (year, month 1..12, day 1..31). -/
structure Date where
  y : Int
  m : Nat
  d : Nat
  deriving DecidableEq

/-- `date` comparison `a < b` (lexicographic on year, month, day). -/
def pyDateLt (a b : Date) : Bool :=
  a.y < b.y || (a.y = b.y && (a.m < b.m || (a.m = b.m && a.d < b.d)))

/-- Gregorian leap-year test. -/
def isLeap (y : Int) : Bool := y % 4 = 0 && (y % 100 ≠ 0 || y % 400 = 0)

/-- Number of days in a month. -/
def daysInMonth (y : Int) (m : Nat) : Nat :=
  if m = 2 then (if isLeap y then 29 else 28)
  else if m = 4 || m = 6 || m = 9 || m = 11 then 30
  else 31

/-- Days since 1970-01-01 of a civil date (proleptic Gregorian; the
standard era-based algorithm used by `datetime`'s ordinal arithmetic). -/
def daysFromCivil (y : Int) (m d : Nat) : Int :=
  let yy : Int := if m ≤ 2 then y - 1 else y
  let era : Int := yy.fdiv 400
  let yoe : Int := yy - era * 400
  let mp : Int := if m ≤ 2 then (m : Int) + 9 else (m : Int) - 3
  let doy : Int := (153 * mp + 2).fdiv 5 + (d : Int) - 1
  let doe : Int := yoe * 365 + yoe.fdiv 4 - yoe.fdiv 100 + doy
  era * 146097 + doe - 719468

/-- Civil date of a days-since-epoch count (inverse of `daysFromCivil`). -/
def civilFromDays (z0 : Int) : Date :=
  let z : Int := z0 + 719468
  let era : Int := z.fdiv 146097
  let doe : Int := z - era * 146097
  let yoe : Int := (doe - doe.fdiv 1460 + doe.fdiv 36524 - doe.fdiv 146096).fdiv 365
  let doy : Int := doe - (365 * yoe + yoe.fdiv 4 - yoe.fdiv 100)
  let mp : Int := (5 * doy + 2).fdiv 153
  let d : Int := doy - (153 * mp + 2).fdiv 5 + 1
  let m : Int := if mp < 10 then mp + 3 else mp - 9
  ⟨(if m ≤ 2 then era * 400 + yoe + 1 else era * 400 + yoe), m.toNat, d.toNat⟩

/-- Calendar date of an instant (seconds since epoch), `datetime.date()`. -/
def dateOfInstant (t : Int) : Date := civilFromDays (t.fdiv 86400)

/-- Numeric value of an ASCII digit. -/
def digitVal (c : Char) : Option Nat :=
  if '0' ≤ c ∧ c ≤ '9' then some (c.toNat - 48) else none

/-- Greedily read one or two digits (the `%d`/`%m` behaviour of
`strptime`). -/
def takeD2 : List Char → Option (Nat × List Char)
  | [] => none
  | [a] => (digitVal a).map (fun v => (v, ([] : List Char)))
  | a :: b :: rest =>
    match digitVal a with
    | none => none
    | some va =>
      match digitVal b with
      | none => some (va, b :: rest)
      | some vb => some (va * 10 + vb, rest)

/-- Read exactly two digits. -/
def takeE2 : List Char → Option (Nat × List Char)
  | a :: b :: rest => do
    let va ← digitVal a
    let vb ← digitVal b
    pure (va * 10 + vb, rest)
  | _ => none

/-- Read exactly four digits (the `%Y` behaviour of `strptime` and of
`fromisoformat`). -/
def takeE4 : List Char → Option (Nat × List Char)
  | a :: b :: c :: d :: rest => do
    let va ← digitVal a
    let vb ← digitVal b
    let vc ← digitVal c
    let vd ← digitVal d
    pure (((va * 10 + vb) * 10 + vc) * 10 + vd, rest)
  | _ => none

/-- Consume one expected literal character. -/
def expectC (c : Char) : List Char → Option (List Char)
  | x :: rest => if x = c then some rest else none
  | [] => none

/-- Is the parsed year/month/day a valid `datetime.date`? -/
def validYMD (y m d : Nat) : Bool :=
  1 ≤ y && 1 ≤ m && m ≤ 12 && 1 ≤ d && d ≤ daysInMonth (y : Int) m

/-- `datetime.strptime(s, "%Y-%m-%d").date()`: four-digit year, one- or
two-digit month and day, with range validation; `none` models the raised
`ValueError`. -/
def strptimeYMD (s : String) : Option Date := do
  let (y, r1) ← takeE4 s.data
  let r2 ← expectC '-' r1
  let (m, r3) ← takeD2 r2
  let r4 ← expectC '-' r3
  let (d, r5) ← takeD2 r4
  if r5 = [] && validYMD y m d then pure ⟨(y : Int), m, d⟩ else none

/-- Lower-cased month abbreviations recognised by `%b`. -/
def monthAbbsLower : List (List Char) :=
  ["jan", "feb", "mar", "apr", "may", "jun",
   "jul", "aug", "sep", "oct", "nov", "dec"].map String.data

/-- Capitalised month abbreviations produced by `%b`. -/
def monthAbbs : List String :=
  ["Jan", "Feb", "Mar", "Apr", "May", "Jun",
   "Jul", "Aug", "Sep", "Oct", "Nov", "Dec"]

/-- Read a three-letter month abbreviation, case-insensitively (`%b`). -/
def takeMonthAbb : List Char → Option (Nat × List Char)
  | a :: b :: c :: rest =>
    match monthAbbsLower.findIdx? (fun w => w = [asciiLower a, asciiLower b, asciiLower c]) with
    | some i => some (i + 1, rest)
    | none => none
  | _ => none

/-- `datetime.strptime(s, "%d. %b %Y").date()`: the date-label format of
the scraped page, e.g. `"14. Mar 2024"`. -/
def strptimeDBY (s : String) : Option Date := do
  let (d, r1) ← takeD2 s.data
  let r2 ← expectC '.' r1
  let r3 ← expectC ' ' r2
  let (m, r4) ← takeMonthAbb r3
  let r5 ← expectC ' ' r4
  let (y, r6) ← takeE4 r5
  if r6 = [] && validYMD y m d then pure ⟨(y : Int), m, d⟩ else none

/-- `datetime.fromisoformat`: `YYYY-MM-DD[{T| }HH:MM[:SS][±HH:MM]]`,
returning seconds since epoch in UTC (an instant without an offset is
taken as UTC, i.e. the host timezone is modelled as UTC).  `none` models
the raised `ValueError`. -/
def fromIso (s : String) : Option Int := do
  let (y, r1) ← takeE4 s.data
  let r2 ← expectC '-' r1
  let (mo, r3) ← takeE2 r2
  let r4 ← expectC '-' r3
  let (d, r5) ← takeE2 r4
  if !validYMD y mo d then none else
  let base : Int := daysFromCivil (y : Int) mo d * 86400
  match r5 with
  | [] => pure base
  | sep :: r6 =>
    if sep ≠ 'T' ∧ sep ≠ ' ' then none else do
    let (hh, r7) ← takeE2 r6
    let r8 ← expectC ':' r7
    let (mi, r9) ← takeE2 r8
    if hh > 23 || mi > 59 then none else
    let (ss, r10) ←
      match r9 with
      | ':' :: r9a => do
        let (ss, r10) ← takeE2 r9a
        if ss > 59 then none else pure (ss, r10)
      | _ => pure (0, r9)
    let t : Int := base + (hh * 3600 + mi * 60 + ss : Nat)
    match r10 with
    | [] => pure t
    | sgn :: r11 =>
      if sgn ≠ '+' ∧ sgn ≠ '-' then none else do
      let (oh, r12) ← takeE2 r11
      let r13 ← expectC ':' r12
      let (om, r14) ← takeE2 r13
      if r14 = [] && oh ≤ 23 && om ≤ 59 then
        let off : Int := (oh * 3600 + om * 60 : Nat)
        pure (if sgn = '-' then t + off else t - off)
      else none

/-- Zero-pad a natural number to two digits. -/
def pad2 (n : Nat) : String :=
  if n < 10 then "0" ++ toString n else toString n

/-- Zero-pad a year to four digits (years outside 0..9999 are printed
unpadded; they do not occur in the data). -/
def pad4 (y : Int) : String :=
  if 0 ≤ y ∧ y < 10 then "000" ++ toString y
  else if 0 ≤ y ∧ y < 100 then "00" ++ toString y
  else if 0 ≤ y ∧ y < 1000 then "0" ++ toString y
  else toString y

/-- `datetime.strftime('%Y-%m-%d')` of an instant. -/
def fmtYMD (t : Int) : String :=
  let d := dateOfInstant t
  pad4 d.y ++ "-" ++ pad2 d.m ++ "-" ++ pad2 d.d

/-- `datetime.strftime('%H:%M')` of an instant. -/
def fmtHM (t : Int) : String :=
  let s := (t.fmod 86400).toNat
  pad2 (s / 3600) ++ ":" ++ pad2 (s % 3600 / 60)

/-- `datetime.strftime('%b-%Y')` of a date, the month page selector of
the scraped site's URL. -/
def fmtBY (d : Date) : String :=
  (monthAbbs.getD (d.m - 1) "") ++ "-" ++ pad4 d.y

/-- The timezone database (`pytz`): a zone name resolves to a function
giving the zone's UTC offset in minutes at a given UTC instant (this is
what `astimezone` applies), or to nothing (`UnknownTimeZoneError`). -/
abbrev TzDb := String → Option (Int → Int)

/-- A string-valued dictionary entry where the code distinguishes a
missing key, a `None` value, and a string value (e.g. airport `icao`
and `iata` codes, read with `.get(key, '')` and then `.lower()`ed, so a
present `None` raises `AttributeError`). -/
inductive PyField where
  | absent
  | pynull
  | pystr (s : String)
  deriving DecidableEq

/-- An airport sub-dictionary: IATA/ICAO codes and IANA timezone name. -/
structure Airport where
  icao : PyField
  iata : PyField
  tz : Option String
  deriving DecidableEq

/-- The `from`/`to` relational field of a flight record.  It is a
dictionary on records fetched from the API, and becomes the scalar ICAO
code (or `None`) after `update_flight` flattens it. -/
inductive RelField where
  | absent
  | pynull
  | obj (a : Airport)
  | code (s : String)
  deriving DecidableEq

/-- The `airline` field: a dictionary with `name`/`icao`, or the scalar
ICAO code (or `None`) after flattening. -/
inductive AirlineField where
  | absent
  | pynull
  | obj (name : Option String) (icao : Option String)
  | code (s : String)
  deriving DecidableEq

/-- The `aircraft` field: a dictionary with `icao`, or a scalar ICAO
string, or `None`/missing. -/
inductive AcField where
  | absent
  | pynull
  | obj (icao : Option String)
  | code (s : String)
  deriving DecidableEq

/-- A flight record as held in the log database (and as revised by
`update_flight`).  Optional string fields conflate a missing key with a
present `None` wherever the code never observes the difference. -/
structure Flight where
  id : Option Int
  flightNumber : Option String
  date : Option String
  fromA : RelField
  toA : RelField
  airline : AirlineField
  aircraft : AcField
  aircraftReg : Option String
  note : Option String
  notes : Option String
  departure : Option String
  arrival : Option String
  departureTime : Option String
  arrivalTime : Option String
  duration : Option String
  aircraftId : Option String
  airlineId : Option String
  fromId : Option String
  toId : Option String
  deriving DecidableEq

/-- The dictionary built by `parse_flight_html`: every key is always
present, so `Option` here models a `None` value. -/
structure Scraped where
  aircraft_name : Option String
  aircraft_icao : Option String
  aircraft_reg : Option String
  departure_status : Option String
  arrival_status : Option String
  details_url : Option String
  scraped_airline : Option String
  scraped_flight_number : Option String
  deriving DecidableEq

/-- `flight.get('from', {}).get('icao', '').lower()` (and the same for
`iata`): the matcher's airport-code read, which raises `AttributeError`
when the relational field or the code inside it is `None` or already a
scalar string. -/
def relGetCodeLower (pick : Airport → PyField) : RelField → Except PyErr String
  | .absent => .ok ""
  | .pynull => .error .attributeError
  | .code _ => .error .attributeError
  | .obj a =>
    match pick a with
    | .absent => .ok ""
    | .pynull => .error .attributeError
    | .pystr s => .ok (pyLower s)

/-- `payload.get('from', {}).get('tz')`. -/
def relGetTz : RelField → Except PyErr (Option String)
  | .absent => .ok none
  | .pynull => .error .attributeError
  | .code _ => .error .attributeError
  | .obj a => .ok a.tz

/-- Normalisation applied to flight numbers in `find_flight`:
`replace(" ", "").lower()`. -/
def normFn (s : String) : String := pyLower (removeSpaces s)

/-- The per-record loop body of `find_flight` (lines 36-63), with the
`continue`-on-missing-data and `continue`-on-parse-failure structure of
the source. -/
def findFlightGo (tzdb : TzDb) (sfn sap : String) (target : Date) :
    List Flight → Except PyErr (Option Flight)
  | [] => .ok none
  | f :: rest =>
    match f.flightNumber with
    | none => findFlightGo tzdb sfn sap target rest
    | some fnv =>
      if fnv = "" then findFlightGo tzdb sfn sap target rest
      else
        match relGetCodeLower Airport.icao f.fromA with
        | .error e => .error e
        | .ok icao =>
          match relGetCodeLower Airport.iata f.fromA with
          | .error e => .error e
          | .ok iata =>
            match relGetTz f.fromA with
            | .error e => .error e
            | .ok tzName =>
              if truthyOpt f.departure && truthyOpt tzName then
                match f.departure, tzName with
                | some dep, some tzs =>
                  match fromIso (pyReplaceZ dep) with
                  | none => findFlightGo tzdb sfn sap target rest
                  | some utc =>
                    match tzdb tzs with
                    | none => findFlightGo tzdb sfn sap target rest
                    | some off =>
                      let localDate := dateOfInstant (utc + off utc * 60)
                      if normFn fnv = sfn && localDate = target &&
                          (icao = sap || iata = sap) then
                        .ok (some f)
                      else findFlightGo tzdb sfn sap target rest
                | _, _ => findFlightGo tzdb sfn sap target rest
              else findFlightGo tzdb sfn sap target rest

/-- `find_flight(flights, flight_number, departure_date, departing_airport)`
(lines 28-65): timezone-aware search returning the first matching record,
`none` for not found; a malformed search date raises `ValueError`. -/
def findFlight (tzdb : TzDb) (flights : List Flight)
    (flightNumber departureDate departingAirport : String) :
    Except PyErr (Option Flight) :=
  match strptimeYMD departureDate with
  | none => .error .valueError
  | some target =>
    findFlightGo tzdb (normFn flightNumber) (pyLower departingAirport) target flights

/-- A per-flight container of the scraped page, as located by
`parse_flight_html`'s DOM queries (lines 264-298): the text of the
date-label anchor if one was found, the "underline" anchors in order
(text and optional `href`), the status badge texts in order, and the
`href` of the `flight_details` link if one was found.  The
BeautifulSoup CSS-selector layer that produces these from raw markup is
external structure extraction and is modelled by this container list. -/
structure Container where
  dateTag : Option String
  planeTags : List (String × Option String)
  statusSpans : List String
  detailsHref : Option String
  deriving DecidableEq

/-- Last slash-separated segment of a URL path (`href.split('/')[-1]`). -/
def lastSeg (s : String) : String := ⟨(splitOnC '/' s.data).getLastD []⟩

/-- Fact extraction from the selected container
(`parse_flight_html`, lines 277-318). -/
def extractContainer (c : Container) : Scraped :=
  let aircraftName :=
    match c.planeTags with
    | (t, _) :: _ => some (pyStripS t)
    | [] => none
  let aircraftIcao :=
    match c.planeTags with
    | (_, some h) :: _ => if h ≠ "" then some (lastSeg h) else none
    | _ => none
  let aircraftReg :=
    match c.planeTags with
    | _ :: (t, _) :: _ => some (pyStripS t)
    | _ => none
  let departureStatus := (c.statusSpans.get? 1).map pyStripS
  let arrivalStatus := (c.statusSpans.get? 2).map pyStripS
  let detailsUrl := c.detailsHref.map (fun h => "https://www.flightera.net" ++ h)
  let idPair : Option String × Option String :=
    match detailsUrl with
    | none => (none, none)
    | some u =>
      let parts := splitOnC '/' u.data
      if parts.length > 6 then
        let fn : List Char := parts.getD (parts.length - 3) []
        let airlinePart : List Char := (parts.getD (parts.length - 4) []).takeWhile (fun ch => ch ≠ '-')
        (some (replaceChar '+' ' ' ⟨airlinePart⟩), some ⟨fn⟩)
      else (none, none)
  { aircraft_name := aircraftName
    aircraft_icao := aircraftIcao
    aircraft_reg := aircraftReg
    departure_status := departureStatus
    arrival_status := arrivalStatus
    details_url := detailsUrl
    scraped_airline := idPair.1
    scraped_flight_number := idPair.2 }

/-- Does a container's date label parse to the target local date
(day granularity)?  Containers without a date label or with an
unparsable label are skipped. -/
def containerDateMatches (target : Date) (c : Container) : Bool :=
  match c.dateTag with
  | none => false
  | some t =>
    match strptimeDBY (pyStripS t) with
    | none => false
    | some d => d = target

/-- The container scan of `parse_flight_html` (lines 266-324), with the
source's `continue` structure. -/
def parseFlightHtmlGo (target : Date) : List Container → Option Scraped
  | [] => none
  | c :: rest =>
    match c.dateTag with
    | none => parseFlightHtmlGo target rest
    | some t =>
      match strptimeDBY (pyStripS t) with
      | none => parseFlightHtmlGo target rest
      | some d =>
        if d = target then some (extractContainer c)
        else parseFlightHtmlGo target rest

/-- `parse_flight_html(html, target_date_str)` (lines 256-324): parse
the target date (raising `ValueError` if malformed), then scan the
containers in document order; `none` is the not-found outcome. -/
def parseFlightHtml (containers : List Container) (targetDateStr : String) :
    Except PyErr (Option Scraped) :=
  match strptimeYMD targetDateStr with
  | none => .error .valueError
  | some target => .ok (parseFlightHtmlGo target containers)

/-- `flight_data.get('airline', {}).get('name', '').strip()`
(line 234). -/
def airlineNameStripped : AirlineField → Except PyErr String
  | .absent => .ok (pyStripS "")
  | .pynull => .error .attributeError
  | .code _ => .error .attributeError
  | .obj name _ => .ok (pyStripS (name.getD ""))

/-- `.strip()` on a scraped field whose key is always present: a `None`
value raises `AttributeError` (lines 236-237). -/
def stripOptField : Option String → Except PyErr String
  | none => .error .attributeError
  | some s => .ok (pyStripS s)

/-- The validation step of `scrape_flightera_info` (lines 233-246):
trim both identities, compare flight numbers case-insensitively and
airlines by substring containment in either direction, and raise
`DataMismatchError` unless both hold. -/
def checkIdentity (fd : Flight) (sd : Scraped) : Except PyErr Unit := do
  let oa ← airlineNameStripped fd.airline
  let ofn := pyStripS (fd.flightNumber.getD "")
  let sa ← stripOptField sd.scraped_airline
  let sfn ← stripOptField sd.scraped_flight_number
  let airlineMatch := pyIn (pyLower oa) (pyLower sa) || pyIn (pyLower sa) (pyLower oa)
  let fnMatch := pyLower ofn = pyLower sfn
  if airlineMatch && fnMatch then pure () else .error .dataMismatch

/-- Truthiness of the `aircraft` field value (`not payload.get('aircraft')`,
line 362).  A dictionary value is truthy (record dictionaries from the API
are non-empty); after flattening only scalar shapes occur. -/
def truthyAc : AcField → Bool
  | .absent => false
  | .pynull => false
  | .obj _ => true
  | .code s => s ≠ ""

/-- The departure half of the timezone-conversion step of `update_flight`
(lines 337-342): guarded by the truthiness of `payload['departure']` and
then of `payload.get('from', {}).get('tz')` (whose read can raise
`AttributeError` on a flattened payload), it parses the UTC instant
(`ValueError` on failure), resolves the zone (`UnknownTimeZoneError` if
unknown), and rewrites `departure`/`departureTime` in local terms. -/
def tzConvDep (tzdb : TzDb) (f : Flight) : Except PyErr Flight :=
  if truthyOpt f.departure then
    match relGetTz f.fromA with
    | .error e => .error e
    | .ok tzName =>
      if truthyOpt tzName then
        match f.departure, tzName with
        | some dep, some tzs =>
          match fromIso (pyReplaceZ dep) with
          | none => .error .valueError
          | some utc =>
            match tzdb tzs with
            | none => .error .unknownTimeZone
            | some off =>
              let loc := utc + off utc * 60
              .ok { f with departure := some (fmtYMD loc),
                           departureTime := some (fmtHM loc) }
        | _, _ => .ok f
      else .ok f
  else .ok f

/-- The arrival half of the timezone-conversion step (lines 344-349). -/
def tzConvArr (tzdb : TzDb) (f : Flight) : Except PyErr Flight :=
  if truthyOpt f.arrival then
    match relGetTz f.toA with
    | .error e => .error e
    | .ok tzName =>
      if truthyOpt tzName then
        match f.arrival, tzName with
        | some arr, some tzs =>
          match fromIso (pyReplaceZ arr) with
          | none => .error .valueError
          | some utc =>
            match tzdb tzs with
            | none => .error .unknownTimeZone
            | some off =>
              let loc := utc + off utc * 60
              .ok { f with arrival := some (fmtYMD loc),
                           arrivalTime := some (fmtHM loc) }
        | _, _ => .ok f
      else .ok f
  else .ok f

/-- Both timezone conversions in source order. -/
def tzConvert (tzdb : TzDb) (f : Flight) : Except PyErr Flight := do
  tzConvArr tzdb (← tzConvDep tzdb f)

/-- Flattening of a relational airport field to its ICAO scalar
(lines 352-355): only applied when the value is a dictionary. -/
def flattenRel : RelField → RelField
  | .obj a =>
    match a.icao with
    | .pystr s => .code s
    | _ => .pynull
  | r => r

/-- Flattening of the airline field (lines 356-357). -/
def flattenAirline : AirlineField → AirlineField
  | .obj _ icao =>
    match icao with
    | some s => .code s
    | none => .pynull
  | r => r

/-- Flattening of the aircraft field (lines 358-359). -/
def flattenAc : AcField → AcField
  | .obj icao =>
    match icao with
    | some s => .code s
    | none => .pynull
  | r => r

/-- The object-flattening step of `update_flight` (lines 351-359). -/
def flattenRels (f : Flight) : Flight :=
  { f with fromA := flattenRel f.fromA,
           toA := flattenRel f.toA,
           airline := flattenAirline f.airline,
           aircraft := flattenAc f.aircraft }

/-- Conditional aircraft fill (lines 362-365): fill from the scraped
ICAO only when the field is currently falsy, marking the update flag. -/
def fillAircraft (f : Flight) (sd : Scraped) : Flight × Bool :=
  if !truthyAc f.aircraft && truthyOpt sd.aircraft_icao then
    ({ f with aircraft := .code (sd.aircraft_icao.getD "") }, true)
  else (f, false)

/-- Conditional registration fill (lines 367-370). -/
def fillReg (f : Flight) (sd : Scraped) : Flight × Bool :=
  if !truthyOpt f.aircraftReg && truthyOpt sd.aircraft_reg then
    ({ f with aircraftReg := some (sd.aircraft_reg.getD "") }, true)
  else (f, false)

/-- The new annotation lines built from the scraped facts
(lines 372-378), in source order. -/
def buildNewNotes (sd : Scraped) : List (List Char) :=
  (match sd.departure_status with
   | some s => if s ≠ "" then [("Departure: " ++ s).data] else []
   | none => []) ++
  (match sd.arrival_status with
   | some s => if s ≠ "" then [("Arrival: " ++ s).data] else []
   | none => []) ++
  (match sd.details_url with
   | some s => if s ≠ "" then [("Flightera: " ++ s).data] else []
   | none => [])

/-- The keep-filter applied to existing note lines (line 386): keep
lines that do not start (after stripping) with one of the annotation
markers. -/
def noteKeepLine (l : List Char) : Bool :=
  !("Departure:".data.isPrefixOf (stripChars l) ||
    "Arrival:".data.isPrefixOf (stripChars l) ||
    "Flightera:".data.isPrefixOf (stripChars l) ||
    "----------".data.isPrefixOf (stripChars l))

/-- The separator line inserted above a rebuilt annotation block. -/
def sepLine : List Char := "----------".data

/-- `payload.get('note') or payload.get('notes')` (line 382). -/
def pyOrOpt (a b : Option String) : Option String :=
  if truthyOpt a then a else b

/-- The kept lines of the existing note (lines 382-387): the value of
`payload.get('note') or payload.get('notes')`, split into lines and
filtered, when truthy; no lines otherwise. -/
def cleanedOf (f : Flight) : List (List Char) :=
  match pyOrOpt f.note f.notes with
  | some s => if s ≠ "" then (splitNL s.data).filter noteKeepLine else []
  | none => []

/-- The annotation-rebuild step of `update_flight` (lines 372-401):
when at least one new annotation line exists, strip any prior
annotation/separator lines from the existing note, re-join and strip
the remainder, append the separator and the new block (or make the
block the whole note), drop the legacy `notes` key, and mark the
update flag. -/
def rebuildNote (f : Flight) (sd : Scraped) : Flight × Bool :=
  let newNotes := buildNewNotes sd
  if newNotes.isEmpty then (f, false)
  else
    let finalNote : List Char := stripChars (joinNL (cleanedOf f))
    let newSection : List Char := joinNL newNotes
    let note' : List Char :=
      if finalNote ≠ [] then finalNote ++ '\n' :: sepLine ++ '\n' :: newSection
      else newSection
    ({ f with note := some ⟨note'⟩, notes := none }, true)

/-- Removal of fields outside the save schema (lines 403-405). -/
def popFields (f : Flight) : Flight :=
  { f with duration := none, aircraftId := none, airlineId := none,
           fromId := none, toId := none }

/-- `update_flight`'s payload construction (lines 326-409): the whole
deterministic transform, returning the revised payload and the
`is_updated` flag. -/
def updateFlightPayload (tzdb : TzDb) (f : Flight) (sd : Scraped) :
    Except PyErr (Flight × Bool) := do
  let p ← tzConvert tzdb f
  let p := flattenRels p
  let (p, u1) := fillAircraft p sd
  let (p, u2) := fillReg p sd
  let (p, u3) := rebuildNote p sd
  let p := popFields p
  pure (p, u1 || u2 || u3)

/-- `update_flight` including its submission decision (lines 407-415):
the payload is posted to the save endpoint only when `is_updated` is
true; `ok none` means nothing was submitted. -/
def updateFlightSubmit (tzdb : TzDb) (f : Flight) (sd : Scraped) :
    Except PyErr (Option Flight) :=
  (updateFlightPayload tzdb f sd).map (fun pu => if pu.2 then some pu.1 else none)

/-- The already-complete test for the aircraft field (line 185):
`isinstance(aircraft_data, dict) and aircraft_data.get('icao') or
isinstance(aircraft_data, str)` — note that any plain string (even
empty) counts as present. -/
def aircraftPresent : AcField → Bool
  | .obj icao => truthyOpt icao
  | .code _ => true
  | _ => false

/-- The airline identity gate of `scrape_flightera_info` (lines 194-197):
a missing/falsy airline or airline name raises `MissingDataError`; a
truthy non-dictionary airline value raises `AttributeError` at the
`.get('name')` call. -/
def airlineGate : AirlineField → Except PyErr String
  | .absent => .error .missingData
  | .pynull => .error .missingData
  | .code s => if s = "" then .error .missingData else .error .attributeError
  | .obj name _ =>
    if truthyOpt name then .ok (name.getD "") else .error .missingData

/-- The scraped-site URL built at line 212. -/
def buildUrl (airlineName flightNumber : String) (d : Date) : String :=
  "https://www.flightera.net/en/flight/" ++ replaceChar ' ' '+' airlineName ++
    "/" ++ removeSpaces flightNumber ++ "/" ++ fmtBY d ++ "#flight_list"

/-- The future-flight check of `scrape_flightera_info` (lines 176-181):
`ok true` means the flight date is in the future and the record is
skipped; a malformed date raises `ValueError` out of the function. -/
def futureCheck (today : Date) (fd : Flight) : Except PyErr Bool :=
  match fd.date with
  | some ds =>
    if ds ≠ "" then
      match strptimeYMD ds with
      | none => .error .valueError
      | some d => .ok (pyDateLt today d)
    else .ok false
  | none => .ok false

/-- The pre-fetch section of `scrape_flightera_info` (lines 175-217):
future-date skip, already-complete skip, airline and identity-field
gates (raised exceptions propagate to the caller), and URL
construction.  `ok none` is an early return without fetching;
`ok (some (url, dateStr))` proceeds to the fetch. -/
def scrapeGate (today : Date) (fd : Flight) : Except PyErr (Option (String × String)) :=
  match futureCheck today fd with
  | .error e => .error e
  | .ok true => .ok none
  | .ok false =>
    if aircraftPresent fd.aircraft && truthyOpt fd.aircraftReg &&
        pyIn "Flightera:" (fd.note.getD "") then
      .ok none
    else
      match airlineGate fd.airline with
      | .error e => .error e
      | .ok airlineName =>
        if !(truthyOpt fd.flightNumber && truthyOpt fd.date) then
          .error .missingData
        else
          match strptimeYMD (fd.date.getD "") with
          | none => .ok none
          | some d =>
            .ok (some (buildUrl airlineName (fd.flightNumber.getD "") d,
                       fd.date.getD ""))

/-- The fetched-page section of `scrape_flightera_info` (lines 229-248):
parse the rendered page, and if facts for the date were found, validate
the identity and hand over to `update_flight`.  The result is the
payload submitted to save, if any; raised exceptions are the ones the
surrounding `except` block catches. -/
def scrapeInner (tzdb : TzDb) (fd : Flight) (containers : List Container)
    (dateStr : String) : Except PyErr (Option Flight) := do
  match ← parseFlightHtml containers dateStr with
  | none => pure none
  | some sd => do
    checkIdentity fd sd
    updateFlightSubmit tzdb fd sd

/-- Observable outcome of one `scrape_flightera_info` call: the URL
fetched with the browser (if any), the payload submitted to the save
endpoint (if any), the exception propagated to the caller (if any), and
the exception caught and logged by the per-record handler at
lines 250-251 (if any). -/
structure ScrapeRun where
  fetched : Option String
  saved : Option Flight
  raised : Option PyErr
  caught : Option PyErr
  deriving DecidableEq

/-- `scrape_flightera_info(flight_data, ...)` (lines 171-254).
`renderPage` is the browser-automation collaborator returning the
rendered page (as its container list) for a URL. -/
def scrapeFlighteraInfo (today : Date) (tzdb : TzDb)
    (renderPage : String → List Container) (fd : Flight) : ScrapeRun :=
  match scrapeGate today fd with
  | .error e => ⟨none, none, some e, none⟩
  | .ok none => ⟨none, none, none, none⟩
  | .ok (some (url, ds)) =>
    match scrapeInner tzdb fd (renderPage url) ds with
    | .error e => ⟨some url, none, none, some e⟩
    | .ok saved => ⟨some url, saved, none, none⟩

/-- One entry of the batch failure report (lines 462-468): the record's
identifier, the full record, and the diagnostic (the runtime-only
traceback and timestamp fields are elided). -/
structure ErrEntry where
  flight_id : Option Int
  flight_data : Flight
  error : PyErr
  deriving DecidableEq

/-- The batch loop of `process_all_flights` (lines 454-468): each record
is processed in order; an exception propagating out of a record's scrape
is caught and appended to the error log, and processing continues. -/
def processAllFlights (today : Date) (tzdb : TzDb)
    (renderPage : String → List Container) : List Flight → List ErrEntry
  | [] => []
  | f :: rest =>
    match (scrapeFlighteraInfo today tzdb renderPage f).raised with
    | some e => ⟨f.id, f, e⟩ :: processAllFlights today tzdb renderPage rest
    | none => processAllFlights today tzdb renderPage rest

/-- An annotation line in the sense of the note invariant: a line whose
stripped form starts with `Departure:`, `Arrival:`, `Flightera:` or the
separator marker. -/
def isAnnotL (l : List Char) : Bool := !(noteKeepLine l)

/-- The line decomposition of a note string. -/
def noteLines (s : String) : List (List Char) := splitNL s.data

/-- Is a line whitespace-only? -/
def allWsL (l : List Char) : Bool := l.all isPyWs

/-- Drop leading whitespace-only lines and left-trim the first remaining
line — the effect of a whole-string left strip on a line list. -/
def dropEdgeL (l : List (List Char)) : List (List Char) :=
  match l.dropWhile allWsL with
  | [] => []
  | x :: xs => trimL x :: xs

/-- Drop trailing whitespace-only lines and right-trim the last
remaining line — the effect of a whole-string right strip on a line
list. -/
def dropEdgeR : List (List Char) → List (List Char)
  | [] => []
  | x :: xs =>
    match dropEdgeR xs with
    | [] => if allWsL x then [] else [trimR x]
    | y :: ys => x :: y :: ys

/-- Edge-trimming of a line list: what survives of the kept note lines
after the re-joined text is stripped at both ends. -/
def edgeTrimLines (l : List (List Char)) : List (List Char) :=
  dropEdgeL (dropEdgeR l)

/-- The matcher predicate as the specification words it: the caller's
flight number and the record's are equal after space-removal and
case-folding; the record's UTC departure instant, converted into the
origin airport's stored timezone, falls on the requested calendar date;
and the case-folded requested airport equals the record's IATA or ICAO
code.  Records lacking a departure instant or timezone, or with an
unparsable instant or unknown timezone, do not match. -/
def matcherSpecMatches (tzdb : TzDb) (fn : String) (target : Date)
    (ap : String) (f : Flight) : Bool :=
  (match f.flightNumber with
   | some s => s ≠ "" && normFn s = normFn fn
   | none => false) &&
  (match f.fromA with
   | .obj a =>
     (truthyOpt f.departure && truthyOpt a.tz) &&
     (match f.departure, a.tz with
      | some dep, some tzs =>
        (match fromIso (pyReplaceZ dep) with
         | none => false
         | some utc =>
           match tzdb tzs with
           | none => false
           | some off => dateOfInstant (utc + off utc * 60) = target) &&
        ((match a.icao with
          | .pystr s => pyLower s
          | _ => ("" : String)) = pyLower ap ||
         (match a.iata with
          | .pystr s => pyLower s
          | _ => ("" : String)) = pyLower ap)
      | _, _ => false)
   | _ => false)

/-- Crash-freedom of a record under the matcher's dictionary reads: a
record that passes the flight-number gate must carry its origin either
as a missing key or as a dictionary whose `icao`/`iata` values are not
`None`. -/
def matcherWF (f : Flight) : Bool :=
  match f.flightNumber with
  | none => true
  | some s =>
    if s = "" then true
    else
      match f.fromA with
      | .absent => true
      | .obj a => a.icao ≠ .pynull && a.iata ≠ .pynull
      | _ => false

/-- A non-empty aircraft reference in the sense of the skip check: a
non-empty scalar ICAO string or a dictionary with a non-empty `icao`. -/
def nonEmptyAircraftB : AcField → Bool
  | .code s => s ≠ ""
  | .obj (some s) => s ≠ ""
  | _ => false

/-- A flight record with every field missing, used as the base of the
concrete examples. -/
def blankFlight : Flight :=
  { id := none, flightNumber := none, date := none, fromA := .absent,
    toA := .absent, airline := .absent, aircraft := .absent,
    aircraftReg := none, note := none, notes := none, departure := none,
    arrival := none, departureTime := none, arrivalTime := none,
    duration := none, aircraftId := none, airlineId := none,
    fromId := none, toId := none }

/-- A scraped-fact dictionary with every value `None`. -/
def blankScraped : Scraped :=
  { aircraft_name := none, aircraft_icao := none, aircraft_reg := none,
    departure_status := none, arrival_status := none, details_url := none,
    scraped_airline := none, scraped_flight_number := none }

/-- A concrete timezone database for the examples: Los Angeles at
UTC-480 minutes, UTC at zero, everything else unknown. -/
def tzdbEx : TzDb := fun s =>
  if s = "America/Los_Angeles" then some (fun _ => -480)
  else if s = "UTC" then some (fun _ => 0)
  else none

/-- A rendered-page oracle returning an empty page. -/
def renderNone : String → List Container := fun _ => []

/-- C1 example original: identity `Delta Air Lines DL123`, no stored
instants or airport objects, empty aircraft data. -/
def c1Orig : Flight :=
  { blankFlight with flightNumber := some "DL123",
                     airline := .obj (some "Delta Air Lines") none }

/-- C1 example scraped facts with a matching identity. -/
def c1Scraped : Scraped :=
  { blankScraped with
      aircraft_icao := some "B738", aircraft_reg := some "N123DL",
      departure_status := some "On Time",
      details_url := some "https://www.flightera.net/x",
      scraped_airline := some "Delta Air Lines",
      scraped_flight_number := some "DL123" }

/-- The payload `update_flight` produces from `c1Orig`/`c1Scraped`
(the airline dictionary flattens to its missing ICAO). -/
def c1Pay1 : Flight :=
  { c1Orig with airline := .pynull, aircraft := .code "B738",
                aircraftReg := some "N123DL",
                note := some "Departure: On Time\nFlightera: https://www.flightera.net/x" }

/-- Scraped facts with no annotation-producing fields. -/
def c1NoFacts : Scraped :=
  { blankScraped with aircraft_icao := some "B738" }

/-- C3 counterexample original: a note whose single non-annotation line
is indented, plus a stale annotation line. -/
def c3Orig : Flight :=
  { blankFlight with flightNumber := some "DL123",
                     note := some "  indented line\nFlightera: old" }

/-- C3 counterexample scraped facts: only a details URL. -/
def c3Scraped : Scraped := { blankScraped with details_url := some "u" }

/-- The payload produced from `c3Orig`/`c3Scraped`: the kept line lost
its indentation to the whole-string strip. -/
def c3Pay : Flight :=
  { c3Orig with note := some "indented line\n----------\nFlightera: u" }

/-- C3 witness original: one plain line plus a stale annotation line. -/
def c3WOrig : Flight :=
  { blankFlight with note := some "hello\nFlightera: old" }

/-- The payload produced from `c3WOrig` with the `c1Scraped` facts. -/
def c3WPay : Flight :=
  { blankFlight with
      aircraft := .code "B738", aircraftReg := some "N123DL",
      note := some "hello\n----------\nDeparture: On Time\nFlightera: https://www.flightera.net/x" }

/-- C4 example: a record departing 06:30 UTC on 2024-03-16, which is
22:30 on 2024-03-15 in Los Angeles. -/
def c4Rec : Flight :=
  { blankFlight with
      flightNumber := some "UA100",
      fromA := .obj ⟨.pystr "KLAX", .pystr "LAX", some "America/Los_Angeles"⟩,
      departure := some "2024-03-16T06:30:00Z" }

/-- C5 examples: the Frontier and Delta/United identity pairs. -/
def c5FroFd : Flight :=
  { blankFlight with flightNumber := some "F91234",
                     airline := .obj (some "Frontier") none }

/-- Scraped identity `Frontier Airlines F91234`. -/
def c5FroSd : Scraped :=
  { blankScraped with scraped_airline := some "Frontier Airlines",
                      scraped_flight_number := some "F91234" }

/-- Original identity `Delta DL1`. -/
def c5DelFd : Flight :=
  { blankFlight with flightNumber := some "DL1",
                     airline := .obj (some "Delta") none }

/-- Scraped identity `United DL1`. -/
def c5UniSd : Scraped :=
  { blankScraped with scraped_airline := some "United",
                      scraped_flight_number := some "DL1" }

/-- C6 example containers for 14 and 15 March 2024 with distinct facts. -/
def c6C14 : Container :=
  { dateTag := some "14. Mar 2024",
    planeTags := [("Airbus A320", some "/en/aircraft/A320"), ("N314AA", none)],
    statusSpans := ["Legend", "Delayed", "Landed"],
    detailsHref := some "/flight_details/American+Airlines-AA/AA14/KLAX/2024-03-14" }

/-- The second C6 container, dated 15 March 2024. -/
def c6C15 : Container :=
  { dateTag := some "15. Mar 2024",
    planeTags := [("Boeing 737-800", some "/en/aircraft/B738"), ("N315AA", none)],
    statusSpans := ["Legend", "On Time", "Landed"],
    detailsHref := some "/flight_details/American+Airlines-AA/AA15/KLAX/2024-03-15" }

/-- The C6 page: both containers in document order. -/
def c6Containers : List Container := [c6C14, c6C15]

/-- C7 example: an already-complete record. -/
def c7Fd : Flight :=
  { blankFlight with aircraft := .code "B738", aircraftReg := some "N123DL",
                     note := some "Flightera: https://www.flightera.net/x" }

/-- C2 example: a record whose missing airline raises `MissingDataError`
out of the scrape (a past date, incomplete data). -/
def c2Bad : Flight :=
  { blankFlight with flightNumber := some "X1", date := some "2020-01-01" }

/-- C2 example: an already-complete record that is skipped without any
exception. -/
def c2Good : Flight :=
  { blankFlight with id := some 2, aircraft := .code "B738",
                     aircraftReg := some "N1", note := some "Flightera: x" }

/-- C8 example record: stored flight number `DL123`, UTC origin. -/
def c8Rec : Flight :=
  { blankFlight with
      flightNumber := some "DL123",
      fromA := .obj ⟨.pystr "KLAX", .pystr "LAX", some "UTC"⟩,
      departure := some "2024-03-15T10:00:00Z" }

/-- C10 example record: passes every pre-fetch gate. -/
def c10Fd : Flight :=
  { blankFlight with flightNumber := some "DL123", date := some "2020-01-01",
                     airline := .obj (some "Delta Air Lines") none }

/-- C10 example container: matches the date but has no details link. -/
def c10Container : Container :=
  { dateTag := some "1. Jan 2020", planeTags := [], statusSpans := [],
    detailsHref := none }

/-- C10 page oracle. -/
def c10Render : String → List Container := fun _ => [c10Container]

deriving instance DecidableEq for Except

/-- The URL the gate builds for `c10Fd`. -/
def c10Url : String :=
  "https://www.flightera.net/en/flight/Delta+Air+Lines/DL123/Jan-2020#flight_list"

/-- The payload produced from `c1Orig` with the annotation-free scraped
facts `c1NoFacts`: only the aircraft fill fires. -/
def c9Pay : Flight :=
  { c1Orig with airline := .pynull, aircraft := .code "B738" }

theorem parseGo_eq_find (target : Date) (cs : List Container) :
    parseFlightHtmlGo target cs =
      (cs.find? (containerDateMatches target)).map extractContainer := by
  induction cs with
  | nil => rfl
  | cons c rest ih =>
    rcases h1 : c.dateTag with _ | t
    · simp [parseFlightHtmlGo, containerDateMatches, h1, ih, List.find?]
    · rcases h2 : strptimeDBY (pyStripS t) with _ | d
      · simp [parseFlightHtmlGo, containerDateMatches, h1, h2, ih, List.find?]
      · by_cases h3 : d = target
        · simp [parseFlightHtmlGo, containerDateMatches, h1, h2, h3, List.find?]
        · simp [parseFlightHtmlGo, containerDateMatches, h1, h2, h3, ih, List.find?]

/-- C6: the Extractor scans the page's flight containers in document
order and returns the facts of the first container whose parsed date
label equals the target local date at day granularity; if no container's
date matches, the result is NotFound as a normal, non-fatal outcome. -/
theorem c6_extractor_first_match (cs : List Container) (ds : String)
    (target : Date) (h : strptimeYMD ds = some target) :
    parseFlightHtml cs ds =
      .ok ((cs.find? (containerDateMatches target)).map extractContainer) := by
  unfold parseFlightHtml
  rw [h]
  exact congrArg Except.ok (parseGo_eq_find target cs)

/-- C6 witness: two containers dated `14. Mar 2024` and `15. Mar 2024`;
requesting 2024-03-15 returns the second container's facts, not the
first. -/
theorem c6_witness :
    strptimeYMD "2024-03-15" = some ⟨2024, 3, 15⟩ ∧
    parseFlightHtml c6Containers "2024-03-15" =
      .ok ((c6Containers.find? (containerDateMatches ⟨2024, 3, 15⟩)).map extractContainer) ∧
    (c6Containers.find? (containerDateMatches ⟨2024, 3, 15⟩)).map extractContainer =
      some (extractContainer c6C15) ∧
    extractContainer c6C15 ≠ extractContainer c6C14 :=
  ⟨by decide,
   c6_extractor_first_match c6Containers "2024-03-15" ⟨2024, 3, 15⟩ (by decide),
   by decide, by decide⟩

/-- C8 counterexample: `"DL123"` and `"DL\t123"` differ only by a
whitespace character (a tab), yet the matcher finds the record for the
first and not for the second — only spaces are removed by the
normalisation. -/
theorem c8_counterexample :
    findFlight tzdbEx [c8Rec] "DL123" "2024-03-15" "klax" = .ok (some c8Rec) ∧
    findFlight tzdbEx [c8Rec] "DL\t123" "2024-03-15" "klax" = .ok none := by
  constructor
  · decide
  · decide

/-- C8 (amended): for flight-number strings that agree after removing
space characters and case-folding, the matcher returns identical
results — both the caller's and each record's flight number are
normalised by space removal and case-folding before comparison. -/
theorem c8_amended_space_insensitive (tzdb : TzDb) (flights : List Flight)
    (s t dd ap : String) (h : normFn s = normFn t) :
    findFlight tzdb flights s dd ap = findFlight tzdb flights t dd ap := by
  unfold findFlight
  rw [h]

/-- C8 witness: `"DL 123"` and `"dl123"` agree after normalisation and
produce the same search result. -/
theorem c8_witness :
    normFn "DL 123" = normFn "dl123" ∧
    findFlight tzdbEx [c8Rec] "DL 123" "2024-03-15" "klax" =
      findFlight tzdbEx [c8Rec] "dl123" "2024-03-15" "klax" :=
  ⟨by decide,
   c8_amended_space_insensitive tzdbEx [c8Rec] "DL 123" "dl123" "2024-03-15" "klax" (by decide)⟩

/-- Reduction of `Except` bind on an `ok` value. -/
@[simp] theorem exc_bind_ok {ε α β : Type} (a : α) (f : α → Except ε β) :
    (Except.ok a : Except ε α) >>= f = f a := rfl

/-- Reduction of `Except` bind on an `error` value. -/
@[simp] theorem exc_bind_err {ε α β : Type} (e : ε) (f : α → Except ε β) :
    (Except.error e : Except ε α) >>= f = .error e := rfl

/-- Reduction of `Except.map` on an `ok` value. -/
@[simp] theorem exc_map_ok {ε α β : Type} (a : α) (f : α → β) :
    (Except.ok a : Except ε α).map f = .ok (f a) := rfl

/-- Reduction of `Except.map` on an `error` value. -/
@[simp] theorem exc_map_err {ε α β : Type} (e : ε) (f : α → β) :
    (Except.error e : Except ε α).map f = .error e := rfl

/-- `pure` on `Except` is `ok`. -/
@[simp] theorem exc_pure {ε α : Type} (a : α) :
    (pure a : Except ε α) = .ok a := rfl

/-- C5: the Validator accepts iff the flight numbers agree exactly
(case-insensitively, after trimming) and the trimmed case-folded airline
names contain one another in either direction; `Frontier` vs
`Frontier Airlines` is accepted, `Delta` vs `United` is a mismatch; and
a mismatch aborts the update for the record — the scraped facts are
never merged. -/
theorem c5_validator :
    (∀ (fd : Flight) (sd : Scraped) (sa sfn oa : String),
      sd.scraped_airline = some sa → sd.scraped_flight_number = some sfn →
      airlineNameStripped fd.airline = .ok oa →
      (checkIdentity fd sd = .ok () ↔
        (pyLower (pyStripS (fd.flightNumber.getD "")) = pyLower (pyStripS sfn) ∧
         (pyIn (pyLower oa) (pyLower (pyStripS sa)) = true ∨
          pyIn (pyLower (pyStripS sa)) (pyLower oa) = true)))) ∧
    checkIdentity c5FroFd c5FroSd = .ok () ∧
    checkIdentity c5DelFd c5UniSd = .error .dataMismatch ∧
    (∀ (tzdb : TzDb) (fd : Flight) (cs : List Container) (ds : String)
       (sd : Scraped) (e : PyErr),
      parseFlightHtml cs ds = .ok (some sd) →
      checkIdentity fd sd = .error e →
      scrapeInner tzdb fd cs ds = .error e) := by
  refine ⟨?_, by decide, by decide, ?_⟩
  · intro fd sd sa sfn oa hsa hsfn hoa
    simp only [checkIdentity, hoa, hsa, hsfn, stripOptField, exc_bind_ok]
    split
    · rename_i hb
      simp only [Bool.and_eq_true, Bool.or_eq_true, decide_eq_true_eq] at hb
      exact iff_of_true rfl ⟨hb.2, hb.1⟩
    · rename_i hb
      simp only [Bool.and_eq_true, Bool.or_eq_true, decide_eq_true_eq, not_and, not_or] at hb
      refine iff_of_false (by simp) ?_
      rintro ⟨h1, h2⟩
      exact absurd h1 (by simpa using hb h2)
  · intro tzdb fd cs ds sd e hp hc
    unfold scrapeInner
    rw [hp, exc_bind_ok]
    show (checkIdentity fd sd >>= fun _ => updateFlightSubmit tzdb fd sd) = .error e
    rw [hc, exc_bind_err]

/-- C5 witness: the accepted Frontier pair via the characterisation, and
the aborted mismatch via the scrape path. -/
theorem c5_witness :
    checkIdentity c5FroFd c5FroSd = .ok () ∧
    scrapeInner tzdbEx c5DelFd [c6C15] "2024-03-15" = .error .dataMismatch :=
  ⟨(c5_validator.1 c5FroFd c5FroSd "Frontier Airlines" "F91234" "Frontier"
      rfl rfl rfl).mpr (by decide),
   c5_validator.2.2.2 tzdbEx c5DelFd [c6C15] "2024-03-15"
     (extractContainer c6C15) .dataMismatch (by decide) (by decide)⟩

/-- C2: in a batch run every record whose processing raises is caught
and recorded (with the record's identifying data and the diagnostic),
processing continues, the failure report contains exactly one entry per
failing record, and outcomes are per-record (the report is stable under
reordering of the batch). -/
theorem c2_batch_failures :
    (∀ (today : Date) (tzdb : TzDb) (render : String → List Container)
       (flights : List Flight),
      processAllFlights today tzdb render flights =
        flights.filterMap (fun f =>
          match (scrapeFlighteraInfo today tzdb render f).raised with
          | some e => some ⟨f.id, f, e⟩
          | none => none)) ∧
    (∀ (today : Date) (tzdb : TzDb) (render : String → List Container)
       (flights : List Flight),
      (processAllFlights today tzdb render flights).length =
        (flights.filter
          (fun f => (scrapeFlighteraInfo today tzdb render f).raised.isSome)).length) ∧
    (∀ (today : Date) (tzdb : TzDb) (render : String → List Container)
       (l1 l2 : List Flight), l1.Perm l2 →
      (processAllFlights today tzdb render l1).Perm
        (processAllFlights today tzdb render l2)) := by
  have h1 : ∀ (today : Date) (tzdb : TzDb) (render : String → List Container)
      (flights : List Flight),
      processAllFlights today tzdb render flights =
        flights.filterMap (fun f =>
          match (scrapeFlighteraInfo today tzdb render f).raised with
          | some e => some ⟨f.id, f, e⟩
          | none => none) := by
    intro today tzdb render flights
    induction flights with
    | nil => rfl
    | cons f rest ih =>
      rcases hr : (scrapeFlighteraInfo today tzdb render f).raised with _ | e
      · simp [processAllFlights, List.filterMap_cons, hr, ih]
      · simp [processAllFlights, List.filterMap_cons, hr, ih]
  refine ⟨h1, ?_, ?_⟩
  · intro today tzdb render flights
    induction flights with
    | nil => rfl
    | cons f rest ih =>
      rcases hr : (scrapeFlighteraInfo today tzdb render f).raised with _ | e
      · simp [processAllFlights, List.filter_cons, hr, ih]
      · simp [processAllFlights, List.filter_cons, hr, ih]
  · intro today tzdb render l1 l2 hp
    rw [h1, h1]
    exact hp.filterMap _

/-- C2 witness: a two-record batch with one failing record yields
exactly one report entry carrying that record and its diagnostic, and
the report is permutation-stable. -/
theorem c2_witness :
    ([c2Bad, c2Good].Perm [c2Good, c2Bad]) ∧
    processAllFlights ⟨2024, 1, 1⟩ tzdbEx renderNone [c2Bad, c2Good] =
      [⟨none, c2Bad, .missingData⟩] ∧
    (processAllFlights ⟨2024, 1, 1⟩ tzdbEx renderNone [c2Bad, c2Good]).Perm
      (processAllFlights ⟨2024, 1, 1⟩ tzdbEx renderNone [c2Good, c2Bad]) :=
  ⟨by decide, by decide,
   c2_batch_failures.2.2 ⟨2024, 1, 1⟩ tzdbEx renderNone [c2Bad, c2Good]
     [c2Good, c2Bad] (by decide)⟩

theorem nonEmpty_aircraftPresent (a : AcField) (h : nonEmptyAircraftB a = true) :
    aircraftPresent a = true := by
  cases a with
  | absent => simp [nonEmptyAircraftB] at h
  | pynull => simp [nonEmptyAircraftB] at h
  | obj icao =>
    cases icao with
    | none => simp [nonEmptyAircraftB] at h
    | some s => simpa [nonEmptyAircraftB, aircraftPresent, truthyOpt] using h
  | code s => rfl

theorem scrapeGate_complete (today : Date) (fd : Flight)
    (ha : aircraftPresent fd.aircraft = true)
    (hr : truthyOpt fd.aircraftReg = true)
    (hn : pyIn "Flightera:" (fd.note.getD "") = true) :
    scrapeGate today fd = .ok none ∨ ∃ e, scrapeGate today fd = .error e := by
  unfold scrapeGate
  rcases hfc : futureCheck today fd with e | b
  · exact Or.inr ⟨e, rfl⟩
  · cases b
    · rw [ha, hr, hn]
      exact Or.inl rfl
    · exact Or.inl rfl

/-- C7: for a record that already has a non-empty aircraft reference, a
non-empty registration, and a note containing the `Flightera:` marker,
the single-record scrape short-circuits before scraping: no page is
fetched and no save payload is produced. -/
theorem c7_skip_complete (today : Date) (tzdb : TzDb)
    (render : String → List Container) (fd : Flight)
    (ha : nonEmptyAircraftB fd.aircraft = true)
    (hr : truthyOpt fd.aircraftReg = true)
    (hn : pyIn "Flightera:" (fd.note.getD "") = true) :
    (scrapeFlighteraInfo today tzdb render fd).fetched = none ∧
    (scrapeFlighteraInfo today tzdb render fd).saved = none := by
  rcases scrapeGate_complete today fd (nonEmpty_aircraftPresent fd.aircraft ha) hr hn with
    hg | ⟨e, hg⟩ <;> unfold scrapeFlighteraInfo <;> rw [hg] <;> exact ⟨rfl, rfl⟩

/-- C7 witness: a concrete complete record causes no fetch and no
save. -/
theorem c7_witness :
    nonEmptyAircraftB c7Fd.aircraft = true ∧
    truthyOpt c7Fd.aircraftReg = true ∧
    pyIn "Flightera:" (c7Fd.note.getD "") = true ∧
    (scrapeFlighteraInfo ⟨2024, 1, 1⟩ tzdbEx renderNone c7Fd).fetched = none ∧
    (scrapeFlighteraInfo ⟨2024, 1, 1⟩ tzdbEx renderNone c7Fd).saved = none :=
  ⟨by decide, by decide, by decide,
   c7_skip_complete ⟨2024, 1, 1⟩ tzdbEx renderNone c7Fd (by decide) (by decide) (by decide)⟩

theorem tzConvDep_pres (tzdb : TzDb) (f g : Flight)
    (h : tzConvDep tzdb f = .ok g) :
    g.aircraft = f.aircraft ∧ g.aircraftReg = f.aircraftReg ∧
    g.note = f.note ∧ g.notes = f.notes := by
  unfold tzConvDep at h
  repeat' split at h
  all_goals try exact Except.noConfusion h
  all_goals simp only [Except.ok.injEq] at h
  all_goals subst h
  all_goals exact ⟨rfl, rfl, rfl, rfl⟩

theorem tzConvArr_pres (tzdb : TzDb) (f g : Flight)
    (h : tzConvArr tzdb f = .ok g) :
    g.aircraft = f.aircraft ∧ g.aircraftReg = f.aircraftReg ∧
    g.note = f.note ∧ g.notes = f.notes := by
  unfold tzConvArr at h
  repeat' split at h
  all_goals try exact Except.noConfusion h
  all_goals simp only [Except.ok.injEq] at h
  all_goals subst h
  all_goals exact ⟨rfl, rfl, rfl, rfl⟩

theorem tzConvert_pres (tzdb : TzDb) (f g : Flight)
    (h : tzConvert tzdb f = .ok g) :
    g.aircraft = f.aircraft ∧ g.aircraftReg = f.aircraftReg ∧
    g.note = f.note ∧ g.notes = f.notes := by
  unfold tzConvert at h
  rcases hd : tzConvDep tzdb f with e | m
  · rw [hd] at h
    exact Except.noConfusion h
  · rw [hd, exc_bind_ok] at h
    obtain ⟨h1, h2, h3, h4⟩ := tzConvDep_pres tzdb f m hd
    obtain ⟨g1, g2, g3, g4⟩ := tzConvArr_pres tzdb m g h
    exact ⟨g1.trans h1, g2.trans h2, g3.trans h3, g4.trans h4⟩

theorem fillAircraft_fst (f : Flight) (sd : Scraped) :
    (fillAircraft f sd).1.note = f.note ∧ (fillAircraft f sd).1.notes = f.notes ∧
    (fillAircraft f sd).1.aircraftReg = f.aircraftReg := by
  unfold fillAircraft
  split <;> exact ⟨rfl, rfl, rfl⟩

theorem fillReg_fst (f : Flight) (sd : Scraped) :
    (fillReg f sd).1.note = f.note ∧ (fillReg f sd).1.notes = f.notes ∧
    (fillReg f sd).1.aircraft = f.aircraft := by
  unfold fillReg
  split <;> exact ⟨rfl, rfl, rfl⟩

theorem rebuildNote_fst_pres (f : Flight) (sd : Scraped) :
    (rebuildNote f sd).1.aircraft = f.aircraft ∧
    (rebuildNote f sd).1.aircraftReg = f.aircraftReg := by
  by_cases hb : (buildNewNotes sd).isEmpty
  · simp [rebuildNote, hb]
  · simp [rebuildNote, hb]

theorem buildNewNotes_nil (sd : Scraped)
    (h1 : truthyOpt sd.departure_status = false)
    (h2 : truthyOpt sd.arrival_status = false)
    (h3 : truthyOpt sd.details_url = false) :
    buildNewNotes sd = [] := by
  unfold buildNewNotes
  rcases hd : sd.departure_status with _ | s₁ <;>
    rcases ha : sd.arrival_status with _ | s₂ <;>
      rcases hu : sd.details_url with _ | s₃ <;>
        simp_all [truthyOpt]

theorem updatePayload_dissect (tzdb : TzDb) (o : Flight) (sd : Scraped)
    (p : Flight) (c : Bool) (h : updateFlightPayload tzdb o sd = .ok (p, c)) :
    ∃ m, tzConvert tzdb o = .ok m ∧
      p = popFields (rebuildNote (fillReg (fillAircraft (flattenRels m) sd).1 sd).1 sd).1 ∧
      c = ((fillAircraft (flattenRels m) sd).2 ||
           (fillReg (fillAircraft (flattenRels m) sd).1 sd).2 ||
           (rebuildNote (fillReg (fillAircraft (flattenRels m) sd).1 sd).1 sd).2) := by
  unfold updateFlightPayload at h
  rcases hm : tzConvert tzdb o with e | m
  · rw [hm] at h
    exact Except.noConfusion h
  · rw [hm, exc_bind_ok] at h
    refine ⟨m, rfl, ?_⟩
    simp only [exc_pure, Except.ok.injEq, Prod.mk.injEq] at h
    exact ⟨h.1.symm, h.2.symm⟩

/-- C9: when the scraped facts contain none of departure-status,
arrival-status, or details-URL, merge leaves the record's `note` (and
legacy `notes`) field completely unchanged: nothing is appended and no
existing annotation lines are stripped. -/
theorem c9_note_frame (tzdb : TzDb) (o : Flight) (sd : Scraped)
    (p : Flight) (c : Bool)
    (h1 : truthyOpt sd.departure_status = false)
    (h2 : truthyOpt sd.arrival_status = false)
    (h3 : truthyOpt sd.details_url = false)
    (h : updateFlightPayload tzdb o sd = .ok (p, c)) :
    p.note = o.note ∧ p.notes = o.notes := by
  obtain ⟨m, hm, hp, -⟩ := updatePayload_dissect tzdb o sd p c h
  obtain ⟨-, -, hn3, hn4⟩ := tzConvert_pres tzdb o m hm
  have hb := buildNewNotes_nil sd h1 h2 h3
  set q := (fillReg (fillAircraft (flattenRels m) sd).1 sd).1 with hq
  have hrb : (rebuildNote q sd).1 = q := by
    unfold rebuildNote
    rw [hb]
    rfl
  have hqn : q.note = m.note ∧ q.notes = m.notes := by
    obtain ⟨a1, a2, -⟩ := fillAircraft_fst (flattenRels m) sd
    obtain ⟨b1, b2, -⟩ := fillReg_fst (fillAircraft (flattenRels m) sd).1 sd
    exact ⟨b1.trans a1, b2.trans a2⟩
  subst hp
  rw [hrb]
  show q.note = o.note ∧ q.notes = o.notes
  exact ⟨hqn.1.trans hn3, hqn.2.trans hn4⟩

/-- C9 witness: a concrete merge with no annotation facts leaves the
note fields untouched (while still filling the aircraft). -/
theorem c9_witness :
    updateFlightPayload tzdbEx c1Orig c1NoFacts = .ok (c9Pay, true) ∧
    c9Pay.note = c1Orig.note ∧ c9Pay.notes = c1Orig.notes :=
  ⟨by decide,
   c9_note_frame tzdbEx c1Orig c1NoFacts c9Pay true (by decide) (by decide)
     (by decide) (by decide)⟩

theorem flattenAc_flattenAc (a : AcField) : flattenAc (flattenAc a) = flattenAc a := by
  cases a with
  | absent => rfl
  | pynull => rfl
  | code s => rfl
  | obj icao => cases icao <;> rfl

theorem fillAircraft_spec (f : Flight) (sd : Scraped) :
    (fillAircraft f sd).1.aircraft =
      (if !truthyAc f.aircraft && truthyOpt sd.aircraft_icao then
        .code (sd.aircraft_icao.getD "") else f.aircraft) ∧
    (fillAircraft f sd).2 = (!truthyAc f.aircraft && truthyOpt sd.aircraft_icao) := by
  by_cases hb : (!truthyAc f.aircraft && truthyOpt sd.aircraft_icao : Bool) <;>
    simp [fillAircraft, hb]

theorem fillReg_spec (f : Flight) (sd : Scraped) :
    (fillReg f sd).1.aircraftReg =
      (if !truthyOpt f.aircraftReg && truthyOpt sd.aircraft_reg then
        some (sd.aircraft_reg.getD "") else f.aircraftReg) ∧
    (fillReg f sd).2 = (!truthyOpt f.aircraftReg && truthyOpt sd.aircraft_reg) := by
  by_cases hb : (!truthyOpt f.aircraftReg && truthyOpt sd.aircraft_reg : Bool) <;>
    simp [fillReg, hb]

theorem rebuildNote_snd (f : Flight) (sd : Scraped) :
    (rebuildNote f sd).2 = !(buildNewNotes sd).isEmpty := by
  by_cases hb : (buildNewNotes sd).isEmpty <;> simp [rebuildNote, hb]

theorem buildNewNotes_isEmpty (sd : Scraped) :
    (buildNewNotes sd).isEmpty =
      !(truthyOpt sd.departure_status || truthyOpt sd.arrival_status ||
        truthyOpt sd.details_url) := by
  rcases hd : sd.departure_status with _ | s1 <;>
    rcases ha : sd.arrival_status with _ | s2 <;>
      rcases hu : sd.details_url with _ | s3 <;>
        simp only [buildNewNotes, truthyOpt, hd, ha, hu] <;>
          first
          | (split_ifs <;> simp_all)
          | simp_all

/-- C1 counterexample: an original record and identity-matching scraped
facts for which the second of two successive merge applications (the
second using the first's payload as original) still reports
`changed = true`, because the annotation block is unconditionally
rebuilt whenever the scraped facts carry any status or URL. -/
theorem c1_counterexample :
    checkIdentity c1Orig c1Scraped = .ok () ∧
    updateFlightPayload tzdbEx c1Orig c1Scraped = .ok (c1Pay1, true) ∧
    updateFlightPayload tzdbEx c1Pay1 c1Scraped = .ok (c1Pay1, true) :=
  ⟨by decide, by decide, by decide⟩

/-- C1 (amended): for every original record and scraped fact set, when
both of two successive merge applications succeed (the second using the
first's payload as original), the second application's `changed` flag
equals whether the scraped facts contain at least one of
departure-status, arrival-status, or details-URL — the annotation
rebuild always marks a change, while the two fill steps never fire
again; and whenever `changed` is false the payload is not submitted to
save. -/
theorem c1_amended :
    (∀ (tzdb : TzDb) (o : Flight) (sd : Scraped) (p1 : Flight) (c1 : Bool)
       (p2 : Flight) (c2 : Bool),
      updateFlightPayload tzdb o sd = .ok (p1, c1) →
      updateFlightPayload tzdb p1 sd = .ok (p2, c2) →
      c2 = (truthyOpt sd.departure_status || truthyOpt sd.arrival_status ||
            truthyOpt sd.details_url)) ∧
    (∀ (tzdb : TzDb) (o : Flight) (sd : Scraped) (p : Flight),
      updateFlightPayload tzdb o sd = .ok (p, false) →
      updateFlightSubmit tzdb o sd = .ok none) := by
  constructor
  · intro tzdb o sd p1 c1 p2 c2 h1 h2
    obtain ⟨m1, hm1, hp1, hc1⟩ := updatePayload_dissect tzdb o sd p1 c1 h1
    obtain ⟨m2, hm2, hp2, hc2⟩ := updatePayload_dissect tzdb p1 sd p2 c2 h2
    -- the aircraft field of the second round's input
    have hma : m2.aircraft = (fillAircraft (flattenRels m1) sd).1.aircraft := by
      have h1a := (tzConvert_pres tzdb p1 m2 hm2).1
      rw [h1a, hp1]
      have h2a := (rebuildNote_fst_pres
        (fillReg (fillAircraft (flattenRels m1) sd).1 sd).1 sd).1
      have h3a := (fillReg_fst (fillAircraft (flattenRels m1) sd).1 sd).2.2
      exact (h2a.trans h3a)
    -- the registration field of the second round's input
    have hmr : m2.aircraftReg =
        (fillReg (fillAircraft (flattenRels m1) sd).1 sd).1.aircraftReg := by
      have h1r := (tzConvert_pres tzdb p1 m2 hm2).2.1
      rw [h1r, hp1]
      exact (rebuildNote_fst_pres
        (fillReg (fillAircraft (flattenRels m1) sd).1 sd).1 sd).2
    -- second-round aircraft fill never fires
    have hu1 : (fillAircraft (flattenRels m2) sd).2 = false := by
      rw [(fillAircraft_spec (flattenRels m2) sd).2]
      show (!truthyAc (flattenAc m2.aircraft) && truthyOpt sd.aircraft_icao) = false
      rw [hma, (fillAircraft_spec (flattenRels m1) sd).1]
      by_cases hcond : (!truthyAc (flattenRels m1).aircraft &&
          truthyOpt sd.aircraft_icao : Bool)
      · rw [if_pos hcond]
        rcases hic : sd.aircraft_icao with _ | s
        · simp [truthyOpt, hic] at hcond
        · have hs : s ≠ "" := by
            simpa [truthyOpt, hic] using (Bool.and_eq_true _ _ |>.mp hcond).2
          simp [flattenAc, truthyAc, truthyOpt, hs]
      · rw [if_neg hcond]
        show (!truthyAc (flattenAc (flattenAc m1.aircraft)) &&
          truthyOpt sd.aircraft_icao) = false
        rw [flattenAc_flattenAc]
        exact Bool.of_not_eq_true hcond
    -- second-round registration fill never fires
    have hu2 : (fillReg (fillAircraft (flattenRels m2) sd).1 sd).2 = false := by
      rw [(fillReg_spec _ sd).2]
      have hfr : (fillAircraft (flattenRels m2) sd).1.aircraftReg =
          m2.aircraftReg := (fillAircraft_fst (flattenRels m2) sd).2.2
      rw [hfr, hmr, (fillReg_spec (fillAircraft (flattenRels m1) sd).1 sd).1]
      by_cases hcond : (!truthyOpt (fillAircraft (flattenRels m1) sd).1.aircraftReg &&
          truthyOpt sd.aircraft_reg : Bool)
      · rw [if_pos hcond]
        rcases hic : sd.aircraft_reg with _ | s
        · simp [truthyOpt, hic] at hcond
        · have hs : s ≠ "" := by
            simpa [truthyOpt, hic] using (Bool.and_eq_true _ _ |>.mp hcond).2
          simp [truthyOpt, hs]
      · rw [if_neg hcond]
        exact Bool.of_not_eq_true hcond
    rw [hc2, hu1, hu2, rebuildNote_snd, buildNewNotes_isEmpty]
    simp
  · intro tzdb o sd p h
    unfold updateFlightSubmit
    rw [h]
    rfl

/-- C1 witness: the concrete double application (second `changed` is
true, matching the presence of scraped annotation facts), and a
concrete `changed = false` merge whose payload is not submitted. -/
theorem c1_witness :
    updateFlightPayload tzdbEx c1Orig c1Scraped = .ok (c1Pay1, true) ∧
    (true : Bool) = (truthyOpt c1Scraped.departure_status ||
      truthyOpt c1Scraped.arrival_status || truthyOpt c1Scraped.details_url) ∧
    updateFlightSubmit tzdbEx c9Pay c1NoFacts = .ok none :=
  ⟨by decide,
   c1_amended.1 tzdbEx c1Orig c1Scraped c1Pay1 true c1Pay1 true
     (by decide) (by decide),
   c1_amended.2 tzdbEx c9Pay c1NoFacts c9Pay (by decide)⟩

theorem airlineNameStripped_err (a : AirlineField) (e : PyErr)
    (h : airlineNameStripped a = .error e) : e = .attributeError := by
  cases a with
  | absent => exact Except.noConfusion h
  | pynull => cases h; rfl
  | code s => cases h; rfl
  | obj name icao => exact Except.noConfusion h

theorem checkIdentity_no_scraped_airline (fd : Flight) (sd : Scraped)
    (h : sd.scraped_airline = none) :
    checkIdentity fd sd = .error .attributeError := by
  unfold checkIdentity
  rcases ha : airlineNameStripped fd.airline with e | oa
  · obtain rfl := airlineNameStripped_err fd.airline e ha
    rfl
  · rw [h]
    rfl

/-- C10: when the selected container has no details link, or its URL
splits into six or fewer slash-separated segments, the extracted scraped
airline and flight number are `None`; the validation step then raises
`AttributeError` (not a `DataMismatch`), which the per-record handler
catches, and the record is neither merged nor saved. -/
theorem c10_missing_details :
    (∀ c : Container, c.detailsHref = none →
      (extractContainer c).scraped_airline = none ∧
      (extractContainer c).scraped_flight_number = none) ∧
    (∀ (c : Container) (h : String), c.detailsHref = some h →
      (splitOnC '/' ("https://www.flightera.net" ++ h).data).length ≤ 6 →
      (extractContainer c).scraped_airline = none ∧
      (extractContainer c).scraped_flight_number = none) ∧
    (∀ (fd : Flight) (sd : Scraped), sd.scraped_airline = none →
      checkIdentity fd sd = .error .attributeError) ∧
    (∀ (today : Date) (tzdb : TzDb) (render : String → List Container)
       (fd : Flight) (url ds : String) (sd : Scraped),
      scrapeGate today fd = .ok (some (url, ds)) →
      parseFlightHtml (render url) ds = .ok (some sd) →
      sd.scraped_airline = none →
      scrapeFlighteraInfo today tzdb render fd =
        ⟨some url, none, none, some .attributeError⟩) := by
  refine ⟨?_, ?_, checkIdentity_no_scraped_airline, ?_⟩
  · intro c hc
    unfold extractContainer
    rw [hc]
    exact ⟨rfl, rfl⟩
  · intro c h hc hlen
    unfold extractContainer
    rw [hc]
    constructor
    · show (if (splitOnC '/' ("https://www.flightera.net" ++ h).data).length > 6
          then _ else ((none : Option String), (none : Option String))).1 = none
      rw [if_neg (by omega)]
    · show (if (splitOnC '/' ("https://www.flightera.net" ++ h).data).length > 6
          then _ else ((none : Option String), (none : Option String))).2 = none
      rw [if_neg (by omega)]
  · intro today tzdb render fd url ds sd hg hp hn
    have hi : scrapeInner tzdb fd (render url) ds = .error .attributeError := by
      unfold scrapeInner
      rw [hp, exc_bind_ok]
      show (checkIdentity fd sd >>= fun _ => updateFlightSubmit tzdb fd sd) =
        .error .attributeError
      rw [checkIdentity_no_scraped_airline fd sd hn, exc_bind_err]
    unfold scrapeFlighteraInfo
    rw [hg]
    simp only [hi]

/-- C10 witness: a record passing all gates whose matched container has
no details link: the extracted identity is absent, the validation raises
`AttributeError`, the handler catches it, and nothing is saved. -/
theorem c10_witness :
    scrapeGate ⟨2024, 1, 1⟩ c10Fd = .ok (some (c10Url, "2020-01-01")) ∧
    parseFlightHtml (c10Render c10Url) "2020-01-01" =
      .ok (some (extractContainer c10Container)) ∧
    (extractContainer c10Container).scraped_airline = none ∧
    scrapeFlighteraInfo ⟨2024, 1, 1⟩ tzdbEx c10Render c10Fd =
      ⟨some c10Url, none, none, some .attributeError⟩ :=
  ⟨by decide, by decide, by decide,
   c10_missing_details.2.2.2 ⟨2024, 1, 1⟩ tzdbEx c10Render c10Fd c10Url
     "2020-01-01" (extractContainer c10Container) (by decide) (by decide)
     (by decide)⟩

theorem relGetCodeLower_obj (pick : Airport → PyField) (a : Airport)
    (h : pick a ≠ .pynull) :
    relGetCodeLower pick (.obj a) =
      .ok (match pick a with
           | .pystr s => pyLower s
           | _ => ("" : String)) := by
  rcases hp : pick a with _ | _ | s
  · simp [relGetCodeLower, hp]
  · exact absurd hp h
  · simp [relGetCodeLower, hp]

theorem findGo_eq_find (tzdb : TzDb) (fn ap : String) (target : Date) :
    ∀ flights : List Flight, (∀ f ∈ flights, matcherWF f = true) →
      findFlightGo tzdb (normFn fn) (pyLower ap) target flights =
        .ok (flights.find? (matcherSpecMatches tzdb fn target ap)) := by
  intro flights
  induction flights with
  | nil => intro _; rfl
  | cons f rest ih =>
    intro hwf
    have hf := hwf f (List.mem_cons_self f rest)
    have ihr := ih (fun g hg => hwf g (List.mem_cons_of_mem f hg))
    rcases hfn : f.flightNumber with _ | fnv
    · have hpred : matcherSpecMatches tzdb fn target ap f = false := by
        simp [matcherSpecMatches, hfn]
      simp [findFlightGo, hfn, List.find?_cons, hpred, ihr]
    · by_cases hemp : fnv = ""
      · have hpred : matcherSpecMatches tzdb fn target ap f = false := by
          simp [matcherSpecMatches, hfn, hemp]
        simp [findFlightGo, hfn, hemp, List.find?_cons, hpred, ihr]
      · replace hf : (match f.fromA with
            | RelField.absent => true
            | RelField.obj a => a.icao ≠ .pynull && a.iata ≠ .pynull
            | _ => false) = true := by
          simpa [matcherWF, hfn, hemp] using hf
        rcases hA : f.fromA with _ | _ | a | s
        · have hpred : matcherSpecMatches tzdb fn target ap f = false := by
            simp [matcherSpecMatches, hA]
          simp [findFlightGo, hfn, hemp, hA, relGetCodeLower, relGetTz,
            truthyOpt, List.find?_cons, hpred, ihr]
        · rw [hA] at hf
          simp at hf
        · rw [hA] at hf
          obtain ⟨hio, hia⟩ : a.icao ≠ .pynull ∧ a.iata ≠ .pynull := by
            simpa using hf
          have hicL := relGetCodeLower_obj Airport.icao a hio
          have hiaL := relGetCodeLower_obj Airport.iata a hia
          rcases hdep : f.departure with _ | dep
          · have hpred : matcherSpecMatches tzdb fn target ap f = false := by
              simp [matcherSpecMatches, hA, hdep, truthyOpt]
            simp [findFlightGo, hfn, hemp, hA, hicL, hiaL, relGetTz,
              truthyOpt, hdep, List.find?_cons, hpred, ihr]
          · rcases htz : a.tz with _ | tzs
            · have hpred : matcherSpecMatches tzdb fn target ap f = false := by
                simp [matcherSpecMatches, hA, hdep, htz, truthyOpt]
              simp [findFlightGo, hfn, hemp, hA, hicL, hiaL, relGetTz,
                truthyOpt, hdep, htz, List.find?_cons, hpred, ihr]
            · by_cases hde : dep = ""
              · have hpred : matcherSpecMatches tzdb fn target ap f = false := by
                  simp [matcherSpecMatches, hA, hdep, htz, truthyOpt, hde]
                simp [findFlightGo, hfn, hemp, hA, hicL, hiaL, relGetTz,
                  truthyOpt, hdep, htz, hde, List.find?_cons, hpred, ihr]
              · by_cases htze : tzs = ""
                · have hpred : matcherSpecMatches tzdb fn target ap f = false := by
                    simp [matcherSpecMatches, hA, hdep, htz, truthyOpt, hde, htze]
                  simp [findFlightGo, hfn, hemp, hA, hicL, hiaL, relGetTz,
                    truthyOpt, hdep, htz, hde, htze, List.find?_cons, hpred, ihr]
                · rcases hiso : fromIso (pyReplaceZ dep) with _ | utc
                  · have hpred : matcherSpecMatches tzdb fn target ap f = false := by
                      simp [matcherSpecMatches, hA, hdep, htz, truthyOpt, hde,
                        htze, hiso]
                    simp [findFlightGo, hfn, hemp, hA, hicL, hiaL, relGetTz,
                      truthyOpt, hdep, htz, hde, htze, hiso, List.find?_cons,
                      hpred, ihr]
                  · rcases hoff : tzdb tzs with _ | off
                    · have hpred : matcherSpecMatches tzdb fn target ap f = false := by
                        simp [matcherSpecMatches, hA, hdep, htz, truthyOpt, hde,
                          htze, hiso, hoff]
                      simp [findFlightGo, hfn, hemp, hA, hicL, hiaL, relGetTz,
                        truthyOpt, hdep, htz, hde, htze, hiso, hoff,
                        List.find?_cons, hpred, ihr]
                    · have hpred : matcherSpecMatches tzdb fn target ap f =
                          (decide (normFn fnv = normFn fn) &&
                           (decide (dateOfInstant (utc + off utc * 60) = target) &&
                            (decide ((match a.icao with
                              | .pystr s => pyLower s
                              | _ => ("" : String)) = pyLower ap) ||
                             decide ((match a.iata with
                              | .pystr s => pyLower s
                              | _ => ("" : String)) = pyLower ap)))) := by
                        simp [matcherSpecMatches, hfn, hA, hdep, htz, truthyOpt,
                          hde, htze, hiso, hoff, hemp]
                      cases hc1 : decide (normFn fnv = normFn fn) <;>
                        cases hc2 : decide (dateOfInstant (utc + off utc * 60) = target) <;>
                          cases hc3 : (decide ((match a.icao with
                              | .pystr s => pyLower s
                              | _ => ("" : String)) = pyLower ap) ||
                            decide ((match a.iata with
                              | .pystr s => pyLower s
                              | _ => ("" : String)) = pyLower ap)) <;>
                            simp [findFlightGo, hfn, hemp, hA, hicL, hiaL,
                              relGetTz, truthyOpt, hdep, htz, hde, htze, hiso,
                              hoff, List.find?_cons, hpred, hc1, hc2, hc3, ihr]
        · rw [hA] at hf
          simp at hf

/-- C4: the Matcher compares the caller's requested date against the
calendar date of the record's UTC departure instant converted into the
origin airport's stored timezone, and returns the first record in input
order satisfying the flight-number, local-date, and airport predicates
(`none` when no record does); the concrete record departing 06:30 UTC on
2024-03-16 (22:30 on 2024-03-15 in Los Angeles) matches the local date
2024-03-15 although its UTC calendar date differs. -/
theorem c4_matcher_local_date :
    (∀ (tzdb : TzDb) (flights : List Flight) (fn dd ap : String)
       (target : Date),
      strptimeYMD dd = some target →
      (∀ f ∈ flights, matcherWF f = true) →
      findFlight tzdb flights fn dd ap =
        .ok (flights.find? (matcherSpecMatches tzdb fn target ap))) ∧
    (dateOfInstant ((fromIso (pyReplaceZ "2024-03-16T06:30:00Z")).getD 0) ≠
      (⟨2024, 3, 15⟩ : Date) ∧
     findFlight tzdbEx [c4Rec] "UA100" "2024-03-15" "klax" = .ok (some c4Rec)) := by
  constructor
  · intro tzdb flights fn dd ap target htarget hwf
    unfold findFlight
    rw [htarget]
    exact findGo_eq_find tzdb fn ap target flights hwf
  · exact ⟨by decide, by decide⟩

/-- C4 witness: the refinement applied to the midnight-crossing record
at its concrete input. -/
theorem c4_witness :
    strptimeYMD "2024-03-15" = some ⟨2024, 3, 15⟩ ∧
    (∀ f ∈ [c4Rec], matcherWF f = true) ∧
    findFlight tzdbEx [c4Rec] "UA100" "2024-03-15" "klax" =
      .ok ([c4Rec].find? (matcherSpecMatches tzdbEx "UA100" ⟨2024, 3, 15⟩ "klax")) :=
  ⟨by decide, by decide,
   c4_matcher_local_date.1 tzdbEx [c4Rec] "UA100" "2024-03-15" "klax"
     ⟨2024, 3, 15⟩ (by decide) (by decide)⟩

theorem splitOnC_ne_nil (sep : Char) (l : List Char) : splitOnC sep l ≠ [] := by
  induction l with
  | nil => simp [splitOnC]
  | cons c rest ih =>
    unfold splitOnC
    by_cases hc : c = sep
    · simp [hc]
    · simp only [hc, if_false]
      rcases h : splitOnC sep rest with _ | ⟨x, xs⟩
      · simp
      · simp

theorem splitOnC_append (sep : Char) (a b : List Char) :
    splitOnC sep (a ++ sep :: b) = splitOnC sep a ++ splitOnC sep b := by
  induction a with
  | nil => simp [splitOnC]
  | cons c a' ih =>
    by_cases hc : c = sep
    · simp [splitOnC, hc, ih]
    · simp only [List.cons_append]
      unfold splitOnC
      simp only [if_neg hc]
      rw [ih]
      rcases h : splitOnC sep a' with _ | ⟨x, xs⟩
      · exact absurd h (splitOnC_ne_nil sep a')
      · simp only [List.cons_append, List.append_eq]
        rw [splitOnC.eq_def]

theorem splitOnC_no_sep (sep : Char) (l : List Char) (h : sep ∉ l) :
    splitOnC sep l = [l] := by
  induction l with
  | nil => rfl
  | cons c rest ih =>
    have hc : c ≠ sep := fun hcc => h (hcc ▸ List.mem_cons_self c rest)
    have hrest : sep ∉ rest := fun hm => h (List.mem_cons_of_mem c hm)
    simp [splitOnC, hc, ih hrest]

theorem mem_splitOnC (sep : Char) (l : List Char) :
    ∀ x ∈ splitOnC sep l, sep ∉ x := by
  induction l with
  | nil =>
    intro x hx
    simp [splitOnC] at hx
    simp [hx]
  | cons c rest ih =>
    intro x hx
    unfold splitOnC at hx
    by_cases hc : c = sep
    · simp only [hc, if_true] at hx
      rcases List.mem_cons.mp hx with h1 | h2
      · simp [h1]
      · exact ih x h2
    · simp only [hc, if_false] at hx
      rcases h : splitOnC sep rest with _ | ⟨y, ys⟩
      · exact absurd h (splitOnC_ne_nil sep rest)
      · rw [h] at hx ih
        rcases List.mem_cons.mp hx with h1 | h2
        · subst h1
          intro hm
          rcases List.mem_cons.mp hm with h3 | h4
          · exact hc h3.symm
          · exact ih y (List.mem_cons_self y ys) h4
        · exact ih x (List.mem_cons_of_mem y h2)

theorem splitOnC_joinC (sep : Char) (l : List (List Char)) (hne : l ≠ [])
    (hnl : ∀ x ∈ l, sep ∉ x) : splitOnC sep (joinC sep l) = l := by
  induction l with
  | nil => exact absurd rfl hne
  | cons x xs ih =>
    rcases xs with _ | ⟨y, ys⟩
    · exact splitOnC_no_sep sep x (hnl x (List.mem_cons_self x []))
    · have hx : sep ∉ x := hnl x (List.mem_cons_self x (y :: ys))
      have htail : ∀ z ∈ y :: ys, sep ∉ z :=
        fun z hz => hnl z (List.mem_cons_of_mem x hz)
      show splitOnC sep (x ++ sep :: joinC sep (y :: ys)) = x :: y :: ys
      rw [splitOnC_append, splitOnC_no_sep sep x hx, ih (by simp) htail]
      rfl

theorem dw_append_all {α : Type} (p : α → Bool) (a b : List α)
    (h : ∀ x ∈ a, p x = true) :
    (a ++ b).dropWhile p = b.dropWhile p := by
  induction a with
  | nil => rfl
  | cons c a' ih =>
    rw [List.cons_append, List.dropWhile_cons_of_pos (h c (List.mem_cons_self c a'))]
    exact ih (fun x hx => h x (List.mem_cons_of_mem c hx))

theorem dw_append_pos {α : Type} (p : α → Bool) (a b : List α)
    (h : a.dropWhile p ≠ []) :
    (a ++ b).dropWhile p = a.dropWhile p ++ b := by
  induction a with
  | nil => exact absurd rfl h
  | cons c a' ih =>
    by_cases hc : p c
    · rw [List.cons_append, List.dropWhile_cons_of_pos hc,
        List.dropWhile_cons_of_pos hc]
      rw [List.dropWhile_cons_of_pos hc] at h
      exact ih h
    · rw [List.cons_append, List.dropWhile_cons_of_neg hc,
        List.dropWhile_cons_of_neg hc, List.cons_append]

theorem dw_head_false {α : Type} (p : α → Bool) (l : List α) (x : α)
    (xs : List α) (h : l.dropWhile p = x :: xs) : p x = false := by
  induction l with
  | nil => exact absurd h (by simp)
  | cons c l' ih =>
    by_cases hc : p c
    · rw [List.dropWhile_cons_of_pos hc] at h
      exact ih h
    · rw [List.dropWhile_cons_of_neg hc] at h
      cases h
      exact Bool.of_not_eq_true hc

theorem dw_eq_nil_iff {α : Type} (p : α → Bool) (l : List α) :
    l.dropWhile p = [] ↔ ∀ x ∈ l, p x = true := by
  induction l with
  | nil => simp
  | cons c l' ih =>
    by_cases hc : p c
    · rw [List.dropWhile_cons_of_pos hc]
      rw [ih]
      constructor
      · intro h x hx
        rcases List.mem_cons.mp hx with h1 | h2
        · exact h1 ▸ hc
        · exact h x h2
      · intro h x hx
        exact h x (List.mem_cons_of_mem c hx)
    · rw [List.dropWhile_cons_of_neg hc]
      simp only [List.cons_ne_nil, false_iff]
      intro h
      exact hc (h c (List.mem_cons_self c l'))

theorem trimL_eq_nil_iff (l : List Char) :
    trimL l = [] ↔ allWsL l = true := by
  rw [trimL, dw_eq_nil_iff, allWsL, List.all_eq_true]

theorem trimR_eq_nil_iff (l : List Char) :
    trimR l = [] ↔ allWsL l = true := by
  rw [trimR, List.reverse_eq_nil_iff, dw_eq_nil_iff, allWsL, List.all_eq_true]
  constructor
  · intro h x hx
    exact h x (List.mem_reverse.mpr hx)
  · intro h x hx
    exact h x (List.mem_reverse.mp hx)

theorem trimL_append_all (a b : List Char) (h : allWsL a = true) :
    trimL (a ++ b) = trimL b :=
  dw_append_all isPyWs a b (List.all_eq_true.mp h)

theorem trimL_append_pos (a b : List Char) (h : allWsL a = false) :
    trimL (a ++ b) = trimL a ++ b := by
  refine dw_append_pos isPyWs a b ?_
  show trimL a ≠ []
  rw [Ne, trimL_eq_nil_iff, h]
  simp

theorem allWsL_reverse (l : List Char) : allWsL l.reverse = allWsL l := by
  simp [allWsL, List.all_eq_true]

theorem trimR_append_all (a b : List Char) (h : allWsL b = true) :
    trimR (a ++ b) = trimR a := by
  unfold trimR
  rw [List.reverse_append,
    dw_append_all isPyWs b.reverse a.reverse
      (List.all_eq_true.mp ((allWsL_reverse b).trans h))]

theorem trimR_append_pos (a b : List Char) (h : allWsL b = false) :
    trimR (a ++ b) = a ++ trimR b := by
  unfold trimR
  rw [List.reverse_append, dw_append_pos isPyWs b.reverse a.reverse
    (by rw [Ne, dw_eq_nil_iff]
        intro hall
        rw [← List.all_eq_true] at hall
        rw [(allWsL_reverse b).symm.trans hall] at h
        exact Bool.noConfusion h),
    List.reverse_append, List.reverse_reverse]

theorem trimL_cons_pos (c : Char) (l : List Char) (h : isPyWs c = true) :
    trimL (c :: l) = trimL l := List.dropWhile_cons_of_pos h

theorem trimL_cons_neg (c : Char) (l : List Char) (h : isPyWs c = false) :
    trimL (c :: l) = c :: l := List.dropWhile_cons_of_neg (by simp [h])

theorem trimR_cons (c : Char) (l : List Char) :
    trimR (c :: l) = if allWsL (c :: l) then [] else c :: trimR l := by
  by_cases hall : allWsL (c :: l)
  · rw [if_pos hall]
    exact (trimR_eq_nil_iff (c :: l)).mpr hall
  · rw [if_neg hall]
    by_cases hl : allWsL l
    · have hc : isPyWs c = false := by
        by_cases h1 : isPyWs c
        · refine absurd ?_ hall
          simp only [allWsL, List.all_cons, h1, Bool.true_and]
          exact hl
        · exact Bool.of_not_eq_true h1
      have htl : trimR l = [] := (trimR_eq_nil_iff l).mpr hl
      have h1 : trimR [c] = [c] := by
        unfold trimR
        simp only [List.reverse_cons, List.reverse_nil, List.nil_append]
        rw [List.dropWhile_cons_of_neg (by simp [hc])]
        rfl
      show trimR ([c] ++ l) = c :: trimR l
      rw [trimR_append_all [c] l hl, h1, htl]
    · show trimR ([c] ++ l) = c :: trimR l
      rw [trimR_append_pos [c] l (by simpa using hl)]
      rfl

theorem trimL_idem (l : List Char) : trimL (trimL l) = trimL l := by
  rcases h : trimL l with _ | ⟨x, xs⟩
  · rfl
  · exact trimL_cons_neg x xs (dw_head_false isPyWs l x xs h)

theorem trimR_idem (l : List Char) : trimR (trimR l) = trimR l := by
  unfold trimR
  rw [List.reverse_reverse]
  congr 1
  rcases h : l.reverse.dropWhile isPyWs with _ | ⟨x, xs⟩
  · rfl
  · exact List.dropWhile_cons_of_neg
      (by simp [dw_head_false isPyWs l.reverse x xs h])

theorem trimL_trimR_comm (l : List Char) :
    trimL (trimR l) = trimR (trimL l) := by
  induction l with
  | nil => rfl
  | cons c l' ih =>
    by_cases hc : isPyWs c
    · rw [trimL_cons_pos c l' hc, trimR_cons]
      by_cases hall : allWsL (c :: l')
      · rw [if_pos hall]
        have hl' : allWsL l' = true := by
          simp only [allWsL, List.all_cons] at hall
          exact (Bool.and_eq_true _ _ |>.mp hall).2
        have htl : trimR l' = [] := (trimR_eq_nil_iff l').mpr hl'
        rw [← ih, htl]
      · rw [if_neg hall, trimL_cons_pos c (trimR l') hc, ih]
    · have hcf : isPyWs c = false := Bool.of_not_eq_true hc
      rw [trimL_cons_neg c l' hcf, trimR_cons]
      have hall : allWsL (c :: l') = false := by
        simp [allWsL, List.all_cons, hcf]
      rw [if_neg (by simp [hall]), trimL_cons_neg c (trimR l') hcf]

theorem strip_trimL (l : List Char) :
    stripChars (trimL l) = stripChars l := by
  unfold stripChars
  rw [← trimL_trimR_comm, trimL_idem, trimL_trimR_comm]

theorem strip_trimR (l : List Char) :
    stripChars (trimR l) = stripChars l := by
  unfold stripChars
  rw [trimR_idem]

theorem mem_of_mem_dw {α : Type} (p : α → Bool) (l : List α) (z : α)
    (h : z ∈ l.dropWhile p) : z ∈ l := by
  induction l with
  | nil => simp at h
  | cons c l' ih =>
    by_cases hc : p c
    · rw [List.dropWhile_cons_of_pos hc] at h
      exact List.mem_cons_of_mem c (ih h)
    · rwa [List.dropWhile_cons_of_neg hc] at h

theorem not_mem_trimL (c : Char) (x : List Char) (h : c ∉ x) : c ∉ trimL x :=
  fun hm => h (mem_of_mem_dw isPyWs x c hm)

theorem not_mem_trimR (c : Char) (x : List Char) (h : c ∉ x) : c ∉ trimR x := by
  intro hm
  unfold trimR at hm
  exact h (List.mem_reverse.mp (mem_of_mem_dw isPyWs x.reverse c (List.mem_reverse.mp hm)))

theorem allWs_joinNL (l : List (List Char)) :
    allWsL (joinNL l) = true ↔ ∀ x ∈ l, allWsL x = true := by
  induction l with
  | nil => simp [joinNL, joinC, allWsL]
  | cons x xs ih =>
    cases xs with
    | nil => simp [joinNL, joinC]
    | cons y ys =>
      show allWsL (x ++ '\n' :: joinNL (y :: ys)) = true ↔ _
      rw [allWsL, List.all_append, List.all_cons]
      simp only [Bool.and_eq_true, List.forall_mem_cons] at ih ⊢
      constructor
      · rintro ⟨h1, -, h3⟩
        exact ⟨h1, ih.mp h3⟩
      · rintro ⟨h1, h2⟩
        exact ⟨h1, rfl, ih.mpr h2⟩

theorem dropEdgeL_join (l : List (List Char)) :
    joinNL (dropEdgeL l) = trimL (joinNL l) := by
  induction l with
  | nil => rfl
  | cons x xs ih =>
    by_cases hx : allWsL x
    · have h1 : dropEdgeL (x :: xs) = dropEdgeL xs := by
        unfold dropEdgeL
        rw [List.dropWhile_cons_of_pos hx]
      rw [h1, ih]
      cases xs with
      | nil =>
        show trimL (joinNL []) = trimL (joinNL [x])
        show trimL [] = trimL x
        exact ((trimL_eq_nil_iff x).mpr hx).symm
      | cons y ys =>
        show trimL (joinNL (y :: ys)) = trimL (x ++ '\n' :: joinNL (y :: ys))
        rw [trimL_append_all x _ hx, trimL_cons_pos '\n' _ (by decide)]
    · have hxf : allWsL x = false := Bool.of_not_eq_true hx
      have h1 : dropEdgeL (x :: xs) = trimL x :: xs := by
        unfold dropEdgeL
        rw [List.dropWhile_cons_of_neg hx]
      rw [h1]
      cases xs with
      | nil =>
        show trimL x = trimL (joinNL [x])
        rfl
      | cons y ys =>
        show trimL x ++ '\n' :: joinNL (y :: ys) =
          trimL (x ++ '\n' :: joinNL (y :: ys))
        rw [trimL_append_pos x _ hxf]

theorem dropEdgeR_nil_iff (l : List (List Char)) :
    dropEdgeR l = [] ↔ ∀ x ∈ l, allWsL x = true := by
  induction l with
  | nil => simp [dropEdgeR]
  | cons x xs ih =>
    unfold dropEdgeR
    rcases h : dropEdgeR xs with _ | ⟨y, ys⟩
    · simp only [List.forall_mem_cons]
      by_cases hx : allWsL x
      · rw [if_pos hx]
        constructor
        · intro _
          exact ⟨hx, ih.mp h⟩
        · intro _
          rfl
      · rw [if_neg hx]
        constructor
        · intro habs
          exact absurd habs (List.cons_ne_nil (trimR x) [])
        · intro hand
          exact absurd hand.1 hx
    · have hne : ¬ ∀ z ∈ xs, allWsL z = true := by
        intro hall
        rw [ih.mpr hall] at h
        exact List.noConfusion h
      simp [List.forall_mem_cons, hne]

theorem dropEdgeR_join (l : List (List Char)) :
    joinNL (dropEdgeR l) = trimR (joinNL l) := by
  induction l with
  | nil => rfl
  | cons x xs ih =>
    rcases h : dropEdgeR xs with _ | ⟨y, ys⟩
    · have hxs : ∀ z ∈ xs, allWsL z = true := (dropEdgeR_nil_iff xs).mp h
      have h1 : dropEdgeR (x :: xs) = if allWsL x then [] else [trimR x] := by
        unfold dropEdgeR
        rw [h]
      rw [h1]
      cases xs with
      | nil =>
        show joinNL (if allWsL x then [] else [trimR x]) = trimR (joinNL [x])
        by_cases hx : allWsL x
        · rw [if_pos hx]
          exact ((trimR_eq_nil_iff x).mpr hx).symm
        · rw [if_neg hx]
          rfl
      | cons z zs =>
        have hjxs : allWsL (joinNL (z :: zs)) = true :=
          (allWs_joinNL (z :: zs)).mpr hxs
        show joinNL (if allWsL x then [] else [trimR x]) =
          trimR (x ++ '\n' :: joinNL (z :: zs))
        rw [trimR_append_all x _ (by
          simp only [allWsL, List.all_cons, Bool.and_eq_true]
          exact ⟨by decide, hjxs⟩)]
        by_cases hx : allWsL x
        · rw [if_pos hx]
          exact ((trimR_eq_nil_iff x).mpr hx).symm
        · rw [if_neg hx]
          rfl
    · have h1 : dropEdgeR (x :: xs) = x :: y :: ys := by
        unfold dropEdgeR
        rw [h]
      rw [h1]
      cases xs with
      | nil =>
        rw [show dropEdgeR ([] : List (List Char)) = [] from rfl] at h
        exact absurd h.symm (List.cons_ne_nil y ys)
      | cons z zs =>
        have hih := ih
        rw [h] at hih
        have hnall : allWsL (joinNL (z :: zs)) = false := by
          by_cases hcc : allWsL (joinNL (z :: zs))
          · have := (dropEdgeR_nil_iff (z :: zs)).mpr ((allWs_joinNL (z :: zs)).mp hcc)
            rw [this] at h
            exact absurd h.symm (List.cons_ne_nil y ys)
          · exact Bool.of_not_eq_true hcc
        have hnall2 : allWsL ('\n' :: joinNL (z :: zs)) = false := by
          unfold allWsL at hnall ⊢
          rw [List.all_cons, hnall, Bool.and_false]
        show x ++ '\n' :: joinNL (y :: ys) = trimR (x ++ '\n' :: joinNL (z :: zs))
        rw [trimR_append_pos x _ hnall2, trimR_cons,
          if_neg (by rw [hnall2]; simp), hih]

theorem strip_join_edge (l : List (List Char)) :
    stripChars (joinNL l) = joinNL (edgeTrimLines l) := by
  show trimL (trimR (joinNL l)) = joinNL (dropEdgeL (dropEdgeR l))
  rw [← dropEdgeR_join, dropEdgeL_join]

theorem edge_head_ne_nil (l : List (List Char)) (x : List Char)
    (xs : List (List Char)) (h : edgeTrimLines l = x :: xs) : x ≠ [] := by
  unfold edgeTrimLines dropEdgeL at h
  rcases hd : (dropEdgeR l).dropWhile allWsL with _ | ⟨w, ws⟩
  · rw [hd] at h
    exact List.noConfusion h
  · rw [hd] at h
    injection h with h1 h2
    subst h1
    rw [Ne, trimL_eq_nil_iff]
    simp [dw_head_false allWsL (dropEdgeR l) w ws hd]

theorem joinNL_edge_eq_nil (l : List (List Char)) :
    joinNL (edgeTrimLines l) = [] ↔ edgeTrimLines l = [] := by
  constructor
  · intro h
    rcases he : edgeTrimLines l with _ | ⟨x, xs⟩
    · rfl
    · rw [he] at h
      cases xs with
      | nil => exact absurd h (edge_head_ne_nil l x [] he)
      | cons y ys =>
        exfalso
        rw [show joinNL (x :: y :: ys) = x ++ '\n' :: joinNL (y :: ys) from rfl] at h
        rcases List.append_eq_nil.mp h with ⟨-, h2⟩
        exact List.noConfusion h2
  · intro h
    rw [h]
    rfl

theorem mem_dropEdgeL (l : List (List Char)) (y : List Char)
    (hy : y ∈ dropEdgeL l) : ∃ x ∈ l, y = x ∨ y = trimL x := by
  unfold dropEdgeL at hy
  rcases hd : l.dropWhile allWsL with _ | ⟨w, ws⟩
  · rw [hd] at hy
    exact absurd hy (List.not_mem_nil y)
  · rw [hd] at hy
    rcases List.mem_cons.mp hy with h1 | h2
    · exact ⟨w, mem_of_mem_dw allWsL l w (hd ▸ List.mem_cons_self w ws), Or.inr h1⟩
    · refine ⟨y, mem_of_mem_dw allWsL l y ?_, Or.inl rfl⟩
      rw [hd]
      exact List.mem_cons_of_mem w h2

theorem mem_dropEdgeR (l : List (List Char)) (y : List Char)
    (hy : y ∈ dropEdgeR l) : ∃ x ∈ l, y = x ∨ y = trimR x := by
  induction l with
  | nil => simp [dropEdgeR] at hy
  | cons x xs ih =>
    unfold dropEdgeR at hy
    rcases h : dropEdgeR xs with _ | ⟨z, zs⟩
    · rw [h] at hy
      by_cases hx : allWsL x
      · rw [if_pos hx] at hy
        exact absurd hy (List.not_mem_nil y)
      · rw [if_neg hx] at hy
        rcases List.mem_cons.mp hy with h1 | h2
        · exact ⟨x, List.mem_cons_self x xs, Or.inr h1⟩
        · exact absurd h2 (List.not_mem_nil y)
    · rw [h] at hy
      rcases List.mem_cons.mp hy with h1 | h2
      · exact ⟨x, List.mem_cons_self x xs, Or.inl h1⟩
      · rw [← h] at h2
        obtain ⟨w, hw, hyw⟩ := ih h2
        exact ⟨w, List.mem_cons_of_mem x hw, hyw⟩

theorem mem_edge_strip (l : List (List Char)) (y : List Char)
    (hy : y ∈ edgeTrimLines l) : ∃ x ∈ l, stripChars y = stripChars x := by
  obtain ⟨w, hw, hcw⟩ := mem_dropEdgeL (dropEdgeR l) y hy
  obtain ⟨x, hx, hcx⟩ := mem_dropEdgeR l w hw
  have h1 : stripChars y = stripChars w := by
    rcases hcw with h | h
    · rw [h]
    · rw [h, strip_trimL]
  have h2 : stripChars w = stripChars x := by
    rcases hcx with h | h
    · rw [h]
    · rw [h, strip_trimR]
  exact ⟨x, hx, h1.trans h2⟩

theorem dw_length_le {α : Type} (p : α → Bool) (l : List α) :
    (l.dropWhile p).length ≤ l.length := by
  induction l with
  | nil => exact Nat.le_refl 0
  | cons c l' ih =>
    by_cases hc : p c
    · rw [List.dropWhile_cons_of_pos hc]
      exact Nat.le_succ_of_le ih
    · rw [List.dropWhile_cons_of_neg hc]

theorem isPrefixOf_append_self (l t : List Char) :
    l.isPrefixOf (l ++ t) = true := by
  induction l with
  | nil => simp [List.isPrefixOf]
  | cons c l' ih => simp [List.isPrefixOf, ih]

theorem trimL_self_head (pre : List Char) (h1 : trimL pre = pre)
    (h3 : pre ≠ []) : ∃ c pr, pre = c :: pr ∧ isPyWs c = false := by
  cases pre with
  | nil => exact absurd rfl h3
  | cons c pr =>
    by_cases hc : isPyWs c
    · rw [trimL_cons_pos c pr hc] at h1
      have hlen : (trimL pr).length ≤ pr.length := dw_length_le isPyWs pr
      rw [h1] at hlen
      simp at hlen
    · exact ⟨c, pr, rfl, Bool.of_not_eq_true hc⟩

theorem isPfx_strip (pre rest : List Char) (h1 : trimL pre = pre)
    (h2 : trimR pre = pre) (h3 : pre ≠ []) :
    pre.isPrefixOf (stripChars (pre ++ rest)) = true := by
  by_cases hws : allWsL rest
  · have hs : stripChars (pre ++ rest) = pre := by
      unfold stripChars
      rw [trimR_append_all pre rest hws, h2, h1]
    rw [hs]
    have := isPrefixOf_append_self pre []
    rwa [List.append_nil] at this
  · have hrf : allWsL rest = false := Bool.of_not_eq_true hws
    unfold stripChars
    rw [trimR_append_pos pre rest hrf]
    obtain ⟨c, pr, hpre, hcw⟩ := trimL_self_head pre h1 h3
    rw [hpre, show (c :: pr) ++ trimR rest = c :: (pr ++ trimR rest) from rfl,
      trimL_cons_neg c _ hcw]
    exact isPrefixOf_append_self (c :: pr) (trimR rest)

theorem noteKeep_tagged (tag : String) (rest : List Char)
    (h1 : trimL tag.data = tag.data) (h2 : trimR tag.data = tag.data)
    (h3 : tag.data ≠ [])
    (htag : tag = "Departure:" ∨ tag = "Arrival:" ∨ tag = "Flightera:" ∨
            tag = "----------") :
    noteKeepLine (tag.data ++ rest) = false := by
  unfold noteKeepLine
  rcases htag with rfl | rfl | rfl | rfl
  · rw [isPfx_strip _ rest h1 h2 h3]
    rfl
  · rw [isPfx_strip _ rest h1 h2 h3]
    simp
  · rw [isPfx_strip _ rest h1 h2 h3]
    simp
  · rw [isPfx_strip _ rest h1 h2 h3]
    simp

theorem noteKeep_build (sd : Scraped) :
    ∀ l ∈ buildNewNotes sd, noteKeepLine l = false := by
  intro l hl
  unfold buildNewNotes at hl
  simp only [List.mem_append] at hl
  rcases hl with (hl | hl) | hl
  · rcases hd : sd.departure_status with _ | s1
    · simp [hd] at hl
    · simp only [hd] at hl
      by_cases hne : s1 = ""
      · rw [if_neg (by simp [hne])] at hl
        simp at hl
      · rw [if_pos hne] at hl
        rcases List.mem_singleton.mp hl with rfl
        rw [show ("Departure: " ++ s1).data =
          "Departure:".data ++ (' ' :: s1.data) from rfl]
        exact noteKeep_tagged "Departure:" _ (by decide) (by decide) (by decide)
          (Or.inl rfl)
  · rcases hd : sd.arrival_status with _ | s2
    · simp [hd] at hl
    · simp only [hd] at hl
      by_cases hne : s2 = ""
      · rw [if_neg (by simp [hne])] at hl
        simp at hl
      · rw [if_pos hne] at hl
        rcases List.mem_singleton.mp hl with rfl
        rw [show ("Arrival: " ++ s2).data =
          "Arrival:".data ++ (' ' :: s2.data) from rfl]
        exact noteKeep_tagged "Arrival:" _ (by decide) (by decide) (by decide)
          (Or.inr (Or.inl rfl))
  · rcases hd : sd.details_url with _ | s3
    · simp [hd] at hl
    · simp only [hd] at hl
      by_cases hne : s3 = ""
      · rw [if_neg (by simp [hne])] at hl
        simp at hl
      · rw [if_pos hne] at hl
        rcases List.mem_singleton.mp hl with rfl
        rw [show ("Flightera: " ++ s3).data =
          "Flightera:".data ++ (' ' :: s3.data) from rfl]
        exact noteKeep_tagged "Flightera:" _ (by decide) (by decide) (by decide)
          (Or.inr (Or.inr (Or.inl rfl)))

theorem no_nl_append (a b : List Char) (ha : '\n' ∉ a) (hb : '\n' ∉ b) :
    '\n' ∉ a ++ b := by
  intro hm
  rcases List.mem_append.mp hm with h | h
  · exact ha h
  · exact hb h

theorem build_no_nl (sd : Scraped)
    (h1 : ∀ s, sd.departure_status = some s → '\n' ∉ s.data)
    (h2 : ∀ s, sd.arrival_status = some s → '\n' ∉ s.data)
    (h3 : ∀ s, sd.details_url = some s → '\n' ∉ s.data) :
    ∀ l ∈ buildNewNotes sd, '\n' ∉ l := by
  intro l hl
  unfold buildNewNotes at hl
  simp only [List.mem_append] at hl
  rcases hl with (hl | hl) | hl
  · rcases hd : sd.departure_status with _ | s1
    · simp [hd] at hl
    · simp only [hd] at hl
      by_cases hne : s1 = ""
      · rw [if_neg (by simp [hne])] at hl
        simp at hl
      · rw [if_pos hne] at hl
        rcases List.mem_singleton.mp hl with rfl
        rw [show ("Departure: " ++ s1).data =
          "Departure: ".data ++ s1.data from rfl]
        exact no_nl_append _ _ (by decide) (h1 s1 hd)
  · rcases hd : sd.arrival_status with _ | s2
    · simp [hd] at hl
    · simp only [hd] at hl
      by_cases hne : s2 = ""
      · rw [if_neg (by simp [hne])] at hl
        simp at hl
      · rw [if_pos hne] at hl
        rcases List.mem_singleton.mp hl with rfl
        rw [show ("Arrival: " ++ s2).data =
          "Arrival: ".data ++ s2.data from rfl]
        exact no_nl_append _ _ (by decide) (h2 s2 hd)
  · rcases hd : sd.details_url with _ | s3
    · simp [hd] at hl
    · simp only [hd] at hl
      by_cases hne : s3 = ""
      · rw [if_neg (by simp [hne])] at hl
        simp at hl
      · rw [if_pos hne] at hl
        rcases List.mem_singleton.mp hl with rfl
        rw [show ("Flightera: " ++ s3).data =
          "Flightera: ".data ++ s3.data from rfl]
        exact no_nl_append _ _ (by decide) (h3 s3 hd)

theorem splitNL_joinNL (l : List (List Char)) (hne : l ≠ [])
    (hnl : ∀ x ∈ l, '\n' ∉ x) : splitNL (joinNL l) = l := by
  unfold splitNL joinNL
  exact splitOnC_joinC '\n' l hne hnl

theorem cleanedOf_no_nl (f : Flight) : ∀ x ∈ cleanedOf f, '\n' ∉ x := by
  intro x hx
  unfold cleanedOf at hx
  rcases ho : pyOrOpt f.note f.notes with _ | s
  · rw [ho] at hx
    simp at hx
  · rw [ho] at hx
    have hx2 : x ∈ (if s ≠ "" then
        List.filter noteKeepLine (splitNL s.data) else []) := hx
    by_cases hs : s = ""
    · rw [if_neg (by simp [hs])] at hx2
      simp at hx2
    · rw [if_pos hs] at hx2
      exact mem_splitOnC '\n' s.data x (List.mem_filter.mp hx2).1

theorem edge_no_nl (l : List (List Char)) (hl : ∀ x ∈ l, '\n' ∉ x) :
    ∀ y ∈ edgeTrimLines l, '\n' ∉ y := by
  intro y hy
  obtain ⟨w, hw, hcw⟩ := mem_dropEdgeL (dropEdgeR l) y hy
  obtain ⟨x, hx, hcx⟩ := mem_dropEdgeR l w hw
  have hwn : '\n' ∉ w := by
    rcases hcx with h | h
    · exact h ▸ hl x hx
    · exact h ▸ not_mem_trimR '\n' x (hl x hx)
  rcases hcw with h | h
  · exact h ▸ hwn
  · exact h ▸ not_mem_trimL '\n' w hwn

theorem rebuildNote_lines (f : Flight) (sd : Scraped)
    (hne : buildNewNotes sd ≠ [])
    (hnl : ∀ l ∈ buildNewNotes sd, '\n' ∉ l) :
    splitNL (((rebuildNote f sd).1.note.getD "").data) =
      (if edgeTrimLines (cleanedOf f) = [] then []
       else edgeTrimLines (cleanedOf f) ++ [sepLine]) ++ buildNewNotes sd := by
  have hE_nl := edge_no_nl (cleanedOf f) (cleanedOf_no_nl f)
  have hnote : (rebuildNote f sd).1.note =
      some ⟨(if stripChars (joinNL (cleanedOf f)) ≠ [] then
        stripChars (joinNL (cleanedOf f)) ++ '\n' :: sepLine ++ '\n' ::
          joinNL (buildNewNotes sd)
      else joinNL (buildNewNotes sd))⟩ := by
    unfold rebuildNote
    rw [if_neg (by
      rcases hb : buildNewNotes sd with _ | ⟨a, b⟩
      · exact absurd hb hne
      · simp)]
  rw [hnote]
  show splitNL (if stripChars (joinNL (cleanedOf f)) ≠ [] then
      stripChars (joinNL (cleanedOf f)) ++ '\n' :: sepLine ++ '\n' ::
        joinNL (buildNewNotes sd)
    else joinNL (buildNewNotes sd)) = _
  have hfinal : stripChars (joinNL (cleanedOf f)) =
      joinNL (edgeTrimLines (cleanedOf f)) := strip_join_edge _
  rw [hfinal]
  by_cases hEnil : edgeTrimLines (cleanedOf f) = []
  · rw [hEnil, if_neg (by simp [joinNL, joinC]), if_pos rfl,
      splitNL_joinNL (buildNewNotes sd) hne hnl, List.nil_append]
  · have hjne : joinNL (edgeTrimLines (cleanedOf f)) ≠ [] :=
      fun hj => hEnil ((joinNL_edge_eq_nil (cleanedOf f)).mp hj)
    rw [if_pos hjne, if_neg hEnil]
    unfold splitNL
    rw [splitOnC_append, splitOnC_append,
      show splitOnC '\n' (joinNL (edgeTrimLines (cleanedOf f))) =
        edgeTrimLines (cleanedOf f) from
        splitNL_joinNL (edgeTrimLines (cleanedOf f)) hEnil hE_nl,
      splitOnC_no_sep '\n' sepLine (by decide),
      show splitOnC '\n' (joinNL (buildNewNotes sd)) = buildNewNotes sd from
        splitNL_joinNL (buildNewNotes sd) hne hnl]

theorem filter_all_true {α : Type} (p : α → Bool) (l : List α)
    (h : ∀ x ∈ l, p x = true) : l.filter p = l := by
  induction l with
  | nil => rfl
  | cons c l' ih =>
    rw [List.filter_cons_of_pos (h c (List.mem_cons_self c l'))]
    rw [ih (fun x hx => h x (List.mem_cons_of_mem c hx))]

theorem filter_all_false {α : Type} (p : α → Bool) (l : List α)
    (h : ∀ x ∈ l, p x = false) : l.filter p = [] := by
  induction l with
  | nil => rfl
  | cons c l' ih =>
    rw [List.filter_cons_of_neg (by simp [h c (List.mem_cons_self c l')])]
    exact ih (fun x hx => h x (List.mem_cons_of_mem c hx))

theorem edge_cleaned_keep (f : Flight) :
    ∀ y ∈ edgeTrimLines (cleanedOf f), noteKeepLine y = true := by
  intro y hy
  obtain ⟨x, hx, hsx⟩ := mem_edge_strip _ y hy
  have hkx : noteKeepLine x = true := by
    unfold cleanedOf at hx
    rcases ho : pyOrOpt f.note f.notes with _ | s
    · rw [ho] at hx
      simp at hx
    · rw [ho] at hx
      have hx2 : x ∈ (if s ≠ "" then
          List.filter noteKeepLine (splitNL s.data) else []) := hx
      by_cases hs : s = ""
      · rw [if_neg (by simp [hs])] at hx2
        simp at hx2
      · rw [if_pos hs] at hx2
        exact (List.mem_filter.mp hx2).2
  rw [show noteKeepLine y = noteKeepLine x from by unfold noteKeepLine; rw [hsx]]
  exact hkx

theorem cleanedOf_eq_of_note (f : Flight)
    (hp : truthyOpt f.note = true ∨ truthyOpt f.notes = false) :
    edgeTrimLines (cleanedOf f) =
      edgeTrimLines ((noteLines (f.note.getD "")).filter noteKeepLine) := by
  by_cases hn : truthyOpt f.note
  · rcases ho : f.note with _ | s
    · rw [ho] at hn
      simp [truthyOpt] at hn
    · have hs : s ≠ "" := by
        rw [ho] at hn
        simpa [truthyOpt] using hn
      have h1 : cleanedOf f = (splitNL s.data).filter noteKeepLine := by
        unfold cleanedOf pyOrOpt
        rw [ho, if_pos (show truthyOpt (some s) = true by simpa [truthyOpt] using hs)]
        show (if s ≠ "" then (splitNL s.data).filter noteKeepLine else []) = _
        rw [if_pos hs]
      rw [h1]
      rfl
  · have hnf : truthyOpt f.notes = false := hp.resolve_left hn
    have hno : truthyOpt f.note = false := Bool.of_not_eq_true hn
    have h1 : cleanedOf f = [] := by
      unfold cleanedOf pyOrOpt
      rw [hno]
      show (match (if False then f.note else f.notes) with
        | some s => if s ≠ "" then (splitNL s.data).filter noteKeepLine else []
        | none => []) = ([] : List (List Char))
      rw [if_neg (by simp)]
      rcases hns : f.notes with _ | t
      · rfl
      · have ht : t = "" := by
          rw [hns] at hnf
          simpa [truthyOpt] using hnf
        subst ht
        rfl
    have h2 : (noteLines (f.note.getD "")).filter noteKeepLine = [[]] := by
      rcases ho : f.note with _ | s
      · decide
      · have hse : s = "" := by
          rw [ho] at hno
          simpa [truthyOpt] using hno
        subst hse
        decide
    rw [h1, h2]
    decide

/-- C3 counterexample: a note whose only non-annotation line is indented
loses the indentation when merge rebuilds the annotation block (the
re-joined remainder is whole-string stripped), so the other note lines
are not all preserved verbatim. -/
theorem c3_counterexample :
    updateFlightPayload tzdbEx c3Orig c3Scraped = .ok (c3Pay, true) ∧
    (noteLines (c3Pay.note.getD "")).filter noteKeepLine ≠
      (noteLines (c3Orig.note.getD "")).filter noteKeepLine :=
  ⟨by decide, by decide⟩

/-- C3 (amended): whenever merge runs with scraped facts producing at
least one annotation line (none containing a newline), the resulting
note contains at most one annotation block — its annotation lines
(`Departure:`, `Arrival:`, `Flightera:`, separator) form a contiguous
terminal segment consisting of the optional separator followed by
exactly the new block — while the other note lines are preserved in
their original order up to edge trimming: whitespace-only edge lines
are dropped and edge whitespace of the first and last remaining lines
is removed. -/
theorem c3_amended (tzdb : TzDb) (o : Flight) (sd : Scraped) (p : Flight)
    (c : Bool)
    (h1 : ∀ s, sd.departure_status = some s → '\n' ∉ s.data)
    (h2 : ∀ s, sd.arrival_status = some s → '\n' ∉ s.data)
    (h3 : ∀ s, sd.details_url = some s → '\n' ∉ s.data)
    (hne : buildNewNotes sd ≠ [])
    (hleg : truthyOpt o.note = true ∨ truthyOpt o.notes = false)
    (h : updateFlightPayload tzdb o sd = .ok (p, c)) :
    ((noteLines (p.note.getD "")).filter (fun l => !(noteKeepLine l))).IsSuffix
        (noteLines (p.note.getD "")) ∧
    (noteLines (p.note.getD "")).filter noteKeepLine =
      edgeTrimLines ((noteLines (o.note.getD "")).filter noteKeepLine) ∧
    (noteLines (p.note.getD "")).filter (fun l => !(noteKeepLine l)) =
      (if edgeTrimLines ((noteLines (o.note.getD "")).filter noteKeepLine) = []
       then [] else [sepLine]) ++ buildNewNotes sd := by
  obtain ⟨m, hm, hp, -⟩ := updatePayload_dissect tzdb o sd p c h
  have hXn : (fillReg (fillAircraft (flattenRels m) sd).1 sd).1.note = o.note ∧
      (fillReg (fillAircraft (flattenRels m) sd).1 sd).1.notes = o.notes := by
    obtain ⟨-, -, hc3, hc4⟩ := tzConvert_pres tzdb o m hm
    obtain ⟨a1, a2, -⟩ := fillAircraft_fst (flattenRels m) sd
    obtain ⟨b1, b2, -⟩ := fillReg_fst (fillAircraft (flattenRels m) sd).1 sd
    exact ⟨b1.trans (a1.trans hc3), b2.trans (a2.trans hc4)⟩
  have hpn : p.note =
      (rebuildNote (fillReg (fillAircraft (flattenRels m) sd).1 sd).1 sd).1.note := by
    rw [hp]
    rfl
  have hco : cleanedOf (fillReg (fillAircraft (flattenRels m) sd).1 sd).1 =
      cleanedOf o := by
    unfold cleanedOf pyOrOpt
    rw [hXn.1, hXn.2]
  have hlines : noteLines (p.note.getD "") =
      (if edgeTrimLines (cleanedOf o) = [] then []
       else edgeTrimLines (cleanedOf o) ++ [sepLine]) ++ buildNewNotes sd := by
    rw [hpn]
    show splitNL _ = _
    rw [rebuildNote_lines (fillReg (fillAircraft (flattenRels m) sd).1 sd).1 sd
      hne (build_no_nl sd h1 h2 h3), hco]
  have hbridge := cleanedOf_eq_of_note o hleg
  rw [hbridge] at hlines
  have hEkeep : ∀ y ∈ edgeTrimLines ((noteLines (o.note.getD "")).filter noteKeepLine),
      noteKeepLine y = true := by
    rw [← hbridge, ← hco]
    exact edge_cleaned_keep _
  have hBkeep := noteKeep_build sd
  have hsep : noteKeepLine sepLine = false := by decide
  by_cases hEnil : edgeTrimLines ((noteLines (o.note.getD "")).filter noteKeepLine) = []
  · rw [hEnil, if_pos rfl, List.nil_append] at hlines
    refine ⟨?_, ?_, ?_⟩
    · rw [hlines, filter_all_true _ _ (fun x hx => by simp [hBkeep x hx])]
    · rw [hlines, filter_all_false _ _ hBkeep, hEnil]
    · rw [hlines, filter_all_true _ _ (fun x hx => by simp [hBkeep x hx]),
        if_pos hEnil, List.nil_append]
  · rw [if_neg hEnil] at hlines
    have hAkeepF : ∀ x ∈ [sepLine] ++ buildNewNotes sd, noteKeepLine x = false := by
      intro x hx
      rcases List.mem_append.mp hx with hx1 | hx2
      · rw [List.mem_singleton.mp hx1]
        exact hsep
      · exact hBkeep x hx2
    have hsplit : (noteLines (p.note.getD "")) =
        edgeTrimLines ((noteLines (o.note.getD "")).filter noteKeepLine) ++
          ([sepLine] ++ buildNewNotes sd) := by
      rw [hlines, List.append_assoc]
    refine ⟨?_, ?_, ?_⟩
    · rw [hsplit, List.filter_append, filter_all_false _ _
        (fun x hx => by simp [hEkeep x hx]),
        filter_all_true _ _ (fun x hx => by simp [hAkeepF x hx]), List.nil_append]
      exact List.suffix_append _ _
    · rw [hsplit, List.filter_append, filter_all_true _ _ hEkeep,
        filter_all_false _ _ hAkeepF, List.append_nil]
    · rw [hsplit, List.filter_append, filter_all_false _ _
        (fun x hx => by simp [hEkeep x hx]),
        filter_all_true _ _ (fun x hx => by simp [hAkeepF x hx]),
        List.nil_append, if_neg hEnil]

/-- C3 witness: a concrete merge on a note with one plain line and a
stale annotation line; the annotation lines of the result are exactly
the separator plus the new block, in terminal position, and the plain
line survives edge-trimmed. -/
theorem c3_witness :
    updateFlightPayload tzdbEx c3WOrig c1Scraped = .ok (c3WPay, true) ∧
    (((noteLines (c3WPay.note.getD "")).filter
        (fun l => !(noteKeepLine l))).IsSuffix
      (noteLines (c3WPay.note.getD "")) ∧
    (noteLines (c3WPay.note.getD "")).filter noteKeepLine =
      edgeTrimLines ((noteLines (c3WOrig.note.getD "")).filter noteKeepLine) ∧
    (noteLines (c3WPay.note.getD "")).filter (fun l => !(noteKeepLine l)) =
      (if edgeTrimLines ((noteLines (c3WOrig.note.getD "")).filter noteKeepLine) = []
       then [] else [sepLine]) ++ buildNewNotes c1Scraped) :=
  ⟨by decide,
   c3_amended tzdbEx c3WOrig c1Scraped c3WPay true
     (by
       intro s hs
       have hs2 : some "On Time" = some s := hs
       injection hs2 with h
       subst h
       decide)
     (by
       intro s hs
       have hs2 : (none : Option String) = some s := hs
       exact Option.noConfusion hs2)
     (by
       intro s hs
       have hs2 : some "https://www.flightera.net/x" = some s := hs
       injection hs2 with h
       subst h
       decide)
     (by decide) (Or.inl (by decide)) (by decide)⟩
